import Mathlib

/-!
Shallow embedding of the application-intake and review pipeline of the
`tan-client` bot, restricted to the components the verified claims are
about: the `ApplicationsDatabase` class of `bot/core/database.py` and the
`Applications` cog of `bot/cogs/applications.py`, plus the role-permission
lookup of `bot/util/perms.py`.

Modelling conventions:
- SQLite tables become Lean lists of row structures; `AUTOINCREMENT`
  columns become an explicit next-id counter threaded through the state.
- Timestamps (ISO strings in the database) become `Int` seconds; the
  24-hour expiry window of `submit_application` is `86400` seconds.
  `_parse_datetime` always succeeds on values this model writes, so the
  `or now` fallback of the source is not reachable and is not modelled.
- TEXT columns holding delimiter-encoded lists (`questions` joined with
  a newline, `roles_given` joined with a comma) are modelled as `List Char`
  so that the join/split pair is `List.intercalate` / `List.splitOn`,
  mirroring `str.join` / `str.split` of Python on single-character
  separators; remaining TEXT columns are plain `String`s compared only
  for equality.
- Python `str(n)` for a nonnegative integer is `Nat.toDigits 10 n`;
  Python `int(s)` (which raises on a non-numeric string) is the
  `Option`-valued `parseNat?`; places where the source catches or never
  hits the exception use `parseNat?` accordingly.
- The Discord transport and directory are collaborators: an `Env`
  record carries the observable facts the cog reads from them (the
  single guild, its roles, its channels, the role-permission mapping),
  and DM/channel sends are recorded as `Reply` / `Post` values rather
  than performed.
-/

namespace TanClient

/-- Row of the `applications` table: `application_id` (AUTOINCREMENT key),
`user_id`, `position_id`, the free-text `answers` blob, `status`, and
`submission_date` (intake start time until submission, then submit time). -/
structure AppRow where
  application_id : Nat
  user_id : Nat
  position_id : Nat
  answers : String
  status : String
  submission_date : Int
deriving Repr, DecidableEq

/-- Row of the `positions` table. `roles_given` and `questions` are the raw
delimiter-encoded TEXT columns. The `open` column is `openFlag` because
`open` is a Lean keyword. -/
structure PosRow where
  position_id : Nat
  name : String
  description : String
  roles_given : List Char
  questions : List Char
  acceptance_message : String
  rejection_message : String
  openFlag : Bool
deriving Repr, DecidableEq

/-- Row of the `application_flags` table (user-level flag). -/
structure FlagRow where
  user_id : Nat
  flagged_by : Nat
  reason : Option String
  flagged_at : Int
  guild_id : Option Nat
deriving Repr, DecidableEq

/-- Row of the `application_blacklist` table. -/
structure BlacklistRow where
  user_id : Nat
  blacklisted_by : Nat
  reason : Option String
  blacklisted_at : Int
deriving Repr, DecidableEq

/-- State of `ApplicationsDatabase`: the five tables of
`_initialize_database` plus the AUTOINCREMENT counters. -/
structure ApplicationsDb where
  positions : List PosRow
  applications : List AppRow
  applications_channel : List (Nat × Nat)
  application_flags : List FlagRow
  application_blacklist : List BlacklistRow
  next_position_id : Nat
  next_application_id : Nat
deriving Repr, DecidableEq

/-- Freshly initialized database: all tables empty, AUTOINCREMENT at 1. -/
def initial_db : ApplicationsDb :=
  { positions := [], applications := [], applications_channel := []
    application_flags := [], application_blacklist := []
    next_position_id := 1, next_application_id := 1 }

/-- Numeric value of a decimal digit character (Python `int` on one char). -/
def chDigit (c : Char) : Nat := c.toNat - 48

/-- Model of Python `int(s)` for a nonnegative decimal string: `some` of the
value when `s` is nonempty and all digits, `none` otherwise (the source
raises `ValueError` there; every caller in scope either catches it or only
ever parses strings this model wrote with `Nat.toDigits`). -/
def parseNat? (cs : List Char) : Option Nat :=
  if !cs.isEmpty && cs.all (fun c => c.isDigit) then
    some (cs.foldl (fun a c => 10 * a + chDigit c) 0)
  else none

/-- Encoding used by `ApplicationsDatabase.modify` for `roles_given`:
`','.join(map(str, value))`. -/
def encodeRoles (roles : List Nat) : List Char :=
  List.intercalate [','] (roles.map (fun r => Nat.toDigits 10 r))

/-- Encoding used by `ApplicationsDatabase.modify` for `questions`:
`'\n'.join(value)`. -/
def encodeQuestions (qs : List (List Char)) : List Char :=
  List.intercalate ['\n'] qs

/-- Decoding of `roles_given` in `_position_from_row`: split on `','`,
drop pieces that are empty or all-whitespace, parse each as an int. -/
def decodeRoles (raw : List Char) : List Nat :=
  ((if raw.isEmpty then [] else raw.splitOn ',').filter
      (fun r => !r.isEmpty && r.any (fun c => !c.isWhitespace))).filterMap parseNat?

/-- Decoding of `questions` in `_position_from_row`: split on newline and
drop empty pieces (an empty raw column decodes to no questions). -/
def decodeQuestions (raw : List Char) : List (List Char) :=
  if raw.isEmpty then [] else (raw.splitOn '\n').filter (fun q => !q.isEmpty)

/-- Decoded position dictionary produced by `_position_from_row`. -/
structure Position where
  position_id : Nat
  name : String
  description : String
  roles_given : List Nat
  questions : List (List Char)
  acceptance_message : String
  rejection_message : String
  openFlag : Bool
deriving Repr, DecidableEq

/-- Mirrors `ApplicationsDatabase._position_from_row`. -/
def position_from_row (r : PosRow) : Position :=
  { position_id := r.position_id, name := r.name, description := r.description
    roles_given := decodeRoles r.roles_given
    questions := decodeQuestions r.questions
    acceptance_message := r.acceptance_message
    rejection_message := r.rejection_message
    openFlag := r.openFlag }

/-- Mirrors `ApplicationsDatabase.add_position`: insert a row with empty
defaults and `open = 1`, returning the fresh id. -/
def add_position (db : ApplicationsDb) (name : String) : ApplicationsDb × Nat :=
  let pid := db.next_position_id
  ({ db with
      positions := db.positions ++
        [{ position_id := pid, name := name, description := ""
           roles_given := [], questions := []
           acceptance_message := "", rejection_message := "", openFlag := true }]
      next_position_id := pid + 1 }, pid)

/-- Mirrors `ApplicationsDatabase.remove_position`. -/
def remove_position (db : ApplicationsDb) (position_id : Nat) : ApplicationsDb :=
  { db with positions := db.positions.filter (fun p => !(p.position_id == position_id)) }

/-- Mirrors `ApplicationsDatabase.get_position` (`fetchone` on the primary
key, decoded through `_position_from_row`). -/
def get_position (db : ApplicationsDb) (position_id : Nat) : Option Position :=
  (db.positions.find? (fun p => p.position_id == position_id)).map position_from_row

/-- Mirrors `ApplicationsDatabase.set_position_open`. -/
def set_position_open (db : ApplicationsDb) (position_id : Nat) (opn : Bool) : ApplicationsDb :=
  let ps := db.positions.map
    (fun p => if p.position_id == position_id then { p with openFlag := opn } else p)
  { db with positions := ps }

/-- The `questions` branch of `ApplicationsDatabase.modify` (the Python
method dispatches on the attribute-name string; each branch is a separate
definition here). -/
def modify_questions (db : ApplicationsDb) (position_id : Nat)
    (value : List (List Char)) : ApplicationsDb :=
  let ps := db.positions.map
    (fun p => if p.position_id == position_id then
      { p with questions := encodeQuestions value } else p)
  { db with positions := ps }

/-- The `roles_given` branch of `ApplicationsDatabase.modify`. -/
def modify_roles_given (db : ApplicationsDb) (position_id : Nat)
    (value : List Nat) : ApplicationsDb :=
  let ps := db.positions.map
    (fun p => if p.position_id == position_id then
      { p with roles_given := encodeRoles value } else p)
  { db with positions := ps }

/-- Mirrors `ApplicationsDatabase.set_applications_channel` (upsert). -/
def set_applications_channel (db : ApplicationsDb) (guild_id channel_id : Nat) :
    ApplicationsDb :=
  let rows := (db.applications_channel.filter (fun gc => !(gc.1 == guild_id))) ++
    [(guild_id, channel_id)]
  { db with applications_channel := rows }

/-- Mirrors `ApplicationsDatabase.get_applications_channel`. -/
def get_applications_channel (db : ApplicationsDb) (guild_id : Nat) : Option Nat :=
  (db.applications_channel.find? (fun gc => gc.1 == guild_id)).map (fun gc => gc.2)

/-- One step of the id-maximum scan behind `latest_by_id`. -/
def latest_step (acc : Option AppRow) (r : AppRow) : Option AppRow :=
  match acc with
  | none => some r
  | some b => if b.application_id < r.application_id then some r else some b

/-- Result of `ORDER BY application_id DESC LIMIT 1` over a row set: the
row with the greatest `application_id`, if any. -/
def latest_by_id (l : List AppRow) : Option AppRow :=
  l.foldl latest_step none

/-- Mirrors `ApplicationsDatabase.start_application`: delete any existing
in-progress row for the user and insert a fresh one in the same
transaction, returning the new id. -/
def start_application (db : ApplicationsDb) (user_id position_id : Nat) (now : Int) :
    ApplicationsDb × Nat :=
  let app_id := db.next_application_id
  ({ db with
      applications :=
        (db.applications.filter
            (fun r => !(r.user_id == user_id && r.status == "in_progress"))) ++
          [{ application_id := app_id, user_id := user_id, position_id := position_id
             answers := "", status := "in_progress", submission_date := now }]
      next_application_id := app_id + 1 }, app_id)

/-- Mirrors `ApplicationsDatabase.get_in_progress_application`. -/
def get_in_progress_application (db : ApplicationsDb) (user_id : Nat) : Option AppRow :=
  latest_by_id (db.applications.filter
    (fun r => r.user_id == user_id && r.status == "in_progress"))

/-- Outcome of `ApplicationsDatabase.submit_application` (`(False, reason)`
or `(True, application_id, position_id)` in the source). -/
inductive SubmitResult where
  | no_in_progress
  | expired
  | ok (application_id position_id : Nat)
deriving Repr, DecidableEq

/-- Mirrors `ApplicationsDatabase.submit_application`: look up the newest
in-progress row of the user; fail if there is none; if it started more
than 24 hours ago delete it and fail `expired`; otherwise store the
answers, set the status to `submitted` and refresh `submission_date`. -/
def submit_application (db : ApplicationsDb) (user_id : Nat) (answers : String)
    (now : Int) : ApplicationsDb × SubmitResult :=
  match get_in_progress_application db user_id with
  | none => (db, .no_in_progress)
  | some row =>
    if now - row.submission_date > 86400 then
      ({ db with applications :=
          db.applications.filter (fun r => !(r.application_id == row.application_id)) },
        .expired)
    else
      let upd := db.applications.map
        (fun r => if r.application_id == row.application_id then
          { r with answers := answers, status := "submitted", submission_date := now }
          else r)
      ({ db with applications := upd }, .ok row.application_id row.position_id)

/-- Mirrors `ApplicationsDatabase.get_application` (`fetchone` by id). -/
def get_application (db : ApplicationsDb) (application_id : Nat) : Option AppRow :=
  db.applications.find? (fun r => r.application_id == application_id)

/-- Mirrors `ApplicationsDatabase.get_latest_submitted_application`:
newest row of the user whose status is exactly `submitted`. -/
def get_latest_submitted_application (db : ApplicationsDb) (user_id : Nat) :
    Option AppRow :=
  latest_by_id (db.applications.filter
    (fun r => r.user_id == user_id && r.status == "submitted"))

/-- Mirrors `ApplicationsDatabase.withdraw_application`: no-op returning
false when the row is missing or already withdrawn, otherwise set the
status to `withdrawn` and return true. -/
def withdraw_application (db : ApplicationsDb) (application_id : Nat) :
    ApplicationsDb × Bool :=
  match db.applications.find? (fun r => r.application_id == application_id) with
  | none => (db, false)
  | some row =>
    if row.status == "withdrawn" then (db, false)
    else
      let upd := db.applications.map
        (fun r => if r.application_id == application_id then
          { r with status := "withdrawn" } else r)
      ({ db with applications := upd }, true)

/-- Mirrors `ApplicationsDatabase.set_application_status`: no-op returning
false when the row is missing or already has the requested status,
otherwise commit the new status (only the status column) and return true. -/
def set_application_status (db : ApplicationsDb) (application_id : Nat)
    (status : String) : ApplicationsDb × Bool :=
  match db.applications.find? (fun r => r.application_id == application_id) with
  | none => (db, false)
  | some row =>
    if row.status == status then (db, false)
    else
      let upd := db.applications.map
        (fun r => if r.application_id == application_id then
          { r with status := status } else r)
      ({ db with applications := upd }, true)

/-- Mirrors `ApplicationsDatabase.flag_user` (insert-or-replace upsert). -/
def flag_user (db : ApplicationsDb) (user_id flagged_by : Nat) (reason : Option String)
    (guild_id : Option Nat) (now : Int) : ApplicationsDb :=
  { db with application_flags :=
      (db.application_flags.filter (fun f => !(f.user_id == user_id))) ++
        [{ user_id := user_id, flagged_by := flagged_by, reason := reason
           flagged_at := now, guild_id := guild_id }] }

/-- Mirrors `ApplicationsDatabase.unflag_user`. -/
def unflag_user (db : ApplicationsDb) (user_id : Nat) : ApplicationsDb × Bool :=
  let kept := db.application_flags.filter (fun f => !(f.user_id == user_id))
  ({ db with application_flags := kept }, kept.length < db.application_flags.length)

/-- Mirrors `ApplicationsDatabase.is_user_flagged`: with a guild id, a
guild-scoped flag for that guild or a global (NULL-guild) flag matches. -/
def is_user_flagged (db : ApplicationsDb) (user_id : Nat) (guild_id : Option Nat) : Bool :=
  match guild_id with
  | none => db.application_flags.any (fun f => f.user_id == user_id)
  | some g => db.application_flags.any
      (fun f => f.user_id == user_id && (f.guild_id.isNone || f.guild_id == some g))

/-- Mirrors `ApplicationsDatabase.blacklist_user` (upsert). -/
def blacklist_user (db : ApplicationsDb) (user_id blacklisted_by : Nat)
    (reason : Option String) (now : Int) : ApplicationsDb :=
  { db with application_blacklist :=
      (db.application_blacklist.filter (fun b => !(b.user_id == user_id))) ++
        [{ user_id := user_id, blacklisted_by := blacklisted_by, reason := reason
           blacklisted_at := now }] }

/-- Mirrors `ApplicationsDatabase.unblacklist_user`. -/
def unblacklist_user (db : ApplicationsDb) (user_id : Nat) : ApplicationsDb × Bool :=
  let kept := db.application_blacklist.filter (fun b => !(b.user_id == user_id))
  ({ db with application_blacklist := kept },
    kept.length < db.application_blacklist.length)

/-- Mirrors `ApplicationsDatabase.is_user_blacklisted`. -/
def is_user_blacklisted (db : ApplicationsDb) (user_id : Nat) : Bool :=
  db.application_blacklist.any (fun b => b.user_id == user_id)

/-- Projection used throughout the theorems: the stored status of an
application id, if the row exists. -/
def statusOf (db : ApplicationsDb) (application_id : Nat) : Option String :=
  (get_application db application_id).map (fun r => r.status)

/-- Stored answers blob of an application id. -/
def answersOf (db : ApplicationsDb) (application_id : Nat) : Option String :=
  (get_application db application_id).map (fun r => r.answers)

/-- Stored submission timestamp of an application id. -/
def submissionDateOf (db : ApplicationsDb) (application_id : Nat) : Option Int :=
  (get_application db application_id).map (fun r => r.submission_date)

/-- Observable facts the `Applications` cog reads from its Discord
collaborators: `bot.guilds` (ids), the roles of the first guild, the
channels that exist in it, and the role-permission file entry for
`manage_applications` (role ids stored as strings by `perms.py`). -/
structure Env where
  guilds : List Nat
  guildRoles : List Nat
  channels : List Nat
  permManageApps : List (List Char)
deriving Repr, DecidableEq

/-- Direct-message replies the cog sends back to the applicant; each
constructor stands for one fixed message text of the source. -/
inductive Reply where
  | noInProgressHint
  | expiredNotice
  | genericFailure
  | savedNoGuild
  | savedNoChannelConfigured
  | savedChannelMissing
  | submittedThanks
deriving Repr, DecidableEq

/-- Messages the cog posts to the configured applications channel. -/
inductive Post where
  | mentionPost (text : String)
  | submissionEmbed (application_id position_id : Nat) (answers_field : String)
deriving Repr, DecidableEq

/-- Result of `Applications.apply` (the `/application apply` command). -/
inductive ApplyResult where
  | blocked
  | positionNotFound
  | closed
  | dmFailed
  | started (application_id : Nat)
deriving Repr, DecidableEq

namespace Applications

/-- The loop of `Applications.on_message` lines 131-141 that filters the
`manage_applications` role ids down to those that parse as ints and exist
in the guild, preserving order. -/
def mention_roles (role_ids : List (List Char)) (guild_roles : List Nat) : List Nat :=
  role_ids.foldl (fun acc rid =>
    match parseNat? rid with
    | none => acc
    | some rid_int =>
      if guild_roles.contains rid_int then acc ++ [rid_int] else acc) []

/-- Staff-mention text for a flagged applicant: space-joined role mentions
of the resolvable `manage_applications` roles, or the `@Staff` fallback
when none resolve. -/
def mention_for_flagged (role_ids : List (List Char)) (guild_roles : List Nat) : String :=
  let present := mention_roles role_ids guild_roles
  if present.isEmpty then "@Staff"
  else String.intercalate " " (present.map (fun r => "<@&" ++ toString r ++ ">"))

/-- The DM embed fields built by `Applications.apply`: either the single
no-questions notice, or one `Question i` field per question, numbered
from 1 (`enumerate(questions, start=1)`); the field value is the decoded
question text, the no-questions notice value is left abstract as `[]`. -/
def promptFieldsFrom : Nat → List (List Char) → List (String × List Char)
  | _, [] => []
  | i, q :: qs => ("Question " ++ toString i, q) :: promptFieldsFrom (i + 1) qs

/-- Prompt fields for a position, as sent in the single apply-time DM. -/
def applyPromptFields (position : Position) : List (String × List Char) :=
  if position.questions.isEmpty then [("No Questions", [])]
  else promptFieldsFrom 1 position.questions

/-- Mirrors `Applications.apply`: blacklist check, position lookup, open
check, the prompt DM (its delivery outcome is the `dm_ok` input; on
failure no row is created), then `start_application`. -/
def apply (db : ApplicationsDb) (author position_id : Nat) (dm_ok : Bool)
    (now : Int) : ApplicationsDb × ApplyResult :=
  if is_user_blacklisted db author then (db, .blocked)
  else
    match get_position db position_id with
    | none => (db, .positionNotFound)
    | some position =>
      if !position.openFlag then (db, .closed)
      else if !dm_ok then (db, .dmFailed)
      else
        let r := start_application db author position_id now
        (r.1, .started r.2)

/-- Truncation applied to the answers field of the staff-review embed:
cut to 1900 chars with an ellipsis, and show `(No content)` when empty. -/
def truncatedAnswers (answers : String) : String :=
  if answers.length > 1900 then answers.take 1900 ++ "..."
  else if answers == "" then "(No content)" else answers

/-- Everything observable about one run of the DM listener: the resulting
database, the DM replies sent to the applicant, and the posts made to the
applications channel. -/
structure OnMsgOut where
  db : ApplicationsDb
  replies : List Reply
  posts : List Post
deriving Repr, DecidableEq

/-- Mirrors `Applications.on_message` for a direct message from a non-bot
user (the two early returns for guild messages and bot authors are the
caller's concern): look up the in-progress application, submit the message
content (with attachment URLs appended) as the whole answers blob, and on
success post the review embed — preceded by a staff mention when the
applicant is flagged — to the configured channel. -/
def on_message (db : ApplicationsDb) (env : Env) (author : Nat) (content : String)
    (attachments : List String) (now : Int) : OnMsgOut :=
  match get_in_progress_application db author with
  | none => { db := db, replies := [], posts := [] }
  | some _ =>
    let answers := if attachments.isEmpty then content
      else (content ++ "\n\nAttachments:\n" ++ String.intercalate "\n" attachments).trim
    match submit_application db author answers now with
    | (db1, .no_in_progress) => { db := db1, replies := [.noInProgressHint], posts := [] }
    | (db1, .expired) => { db := db1, replies := [.expiredNotice], posts := [] }
    | (db1, .ok application_id position_id) =>
      match env.guilds with
      | [] => { db := db1, replies := [.savedNoGuild], posts := [] }
      | guild :: _ =>
        match get_applications_channel db1 guild with
        | none => { db := db1, replies := [.savedNoChannelConfigured], posts := [] }
        | some channel_id =>
          if !env.channels.contains channel_id then
            { db := db1, replies := [.savedChannelMissing], posts := [] }
          else
            let mention_text : Option String :=
              if is_user_flagged db1 author (some guild) then
                some (mention_for_flagged env.permManageApps env.guildRoles)
              else none
            let posts := (match mention_text with
              | some m => [Post.mentionPost m]
              | none => []) ++
              [Post.submissionEmbed application_id position_id (truncatedAnswers answers)]
            { db := db1, replies := [.submittedThanks], posts := posts }

/-- Result of the `/application withdraw` command. -/
inductive WithdrawResult where
  | appNotFound
  | noSubmitted
  | permissionDenied
  | alreadyWithdrawn
  | cannotWithdraw
  | withdrawFailed
  | withdrawn
deriving Repr, DecidableEq

/-- Ownership and status checks plus the actual withdrawal, shared by the
two target-resolution branches of `Applications.withdraw`. -/
def withdraw_checked (db : ApplicationsDb) (author : Nat) (app : AppRow) :
    ApplicationsDb × WithdrawResult :=
  if !(app.user_id == author) then (db, .permissionDenied)
  else if app.status == "withdrawn" then (db, .alreadyWithdrawn)
  else if app.status == "accepted" || app.status == "rejected" then (db, .cannotWithdraw)
  else
    let r := withdraw_application db app.application_id
    if !r.2 then (r.1, .withdrawFailed) else (r.1, .withdrawn)

/-- Mirrors `Applications.withdraw`: with an explicit id the row is fetched
by id, otherwise the latest `submitted` row of the caller is used. -/
def withdraw (db : ApplicationsDb) (author : Nat) (application_id : Option Nat) :
    ApplicationsDb × WithdrawResult :=
  match application_id with
  | some i =>
    match get_application db i with
    | none => (db, .appNotFound)
    | some app => withdraw_checked db author app
  | none =>
    match get_latest_submitted_application db author with
    | none => (db, .noSubmitted)
    | some app => withdraw_checked db author app

/-- Result of the approve/reject review commands (role grants and
notifications are external side effects performed after the status
commit; they do not touch the database and are not part of this state). -/
inductive ReviewResult where
  | appNotFound
  | alreadyProcessed
  | updateFailed
  | decided
deriving Repr, DecidableEq

/-- Mirrors the database-relevant part of `Applications.approve`: refuse
when the row is missing or its status is accepted/rejected/withdrawn,
otherwise commit status `accepted` before any side effect. -/
def approve (db : ApplicationsDb) (application_id : Nat) : ApplicationsDb × ReviewResult :=
  match get_application db application_id with
  | none => (db, .appNotFound)
  | some app =>
    if app.status == "accepted" || app.status == "rejected" || app.status == "withdrawn" then
      (db, .alreadyProcessed)
    else
      let r := set_application_status db application_id "accepted"
      if !r.2 then (r.1, .updateFailed) else (r.1, .decided)

/-- Mirrors the database-relevant part of `Applications.reject` (the
`reason` argument only shapes the notification text, never the state). -/
def reject (db : ApplicationsDb) (application_id : Nat) (_reason : Option String) :
    ApplicationsDb × ReviewResult :=
  match get_application db application_id with
  | none => (db, .appNotFound)
  | some app =>
    if app.status == "accepted" || app.status == "rejected" || app.status == "withdrawn" then
      (db, .alreadyProcessed)
    else
      let r := set_application_status db application_id "rejected"
      if !r.2 then (r.1, .updateFailed) else (r.1, .decided)

/-- Result of the `/appsmanage appstatus` command. -/
inductive AppstatusResult where
  | invalidStatus
  | appNotFound
  | noChange
  | updateFailed
  | ok
deriving Repr, DecidableEq

/-- The human-label-to-database-status dictionary of `Applications.appstatus`. -/
def status_mapping (key : String) : Option String :=
  if key == "pending" then some "pending"
  else if key == "under review" then some "under_review"
  else if key == "under_review" then some "under_review"
  else if key == "accepted" then some "accepted"
  else if key == "denied" then some "rejected"
  else if key == "rejected" then some "rejected"
  else if key == "withdrawn" then some "withdrawn"
  else if key == "flagged" then some "flagged"
  else if key == "on hold" then some "on_hold"
  else if key == "on_hold" then some "on_hold"
  else none

/-- Mirrors `Applications.appstatus`. `key` is the already-normalized label
(`status.lower().strip()` is applied by Python string builtins before the
dictionary lookup). The extra on-hold channel notice is a pure side
effect and not part of the state. -/
def appstatus (db : ApplicationsDb) (application_id : Nat) (key : String) :
    ApplicationsDb × AppstatusResult :=
  match status_mapping key with
  | none => (db, .invalidStatus)
  | some db_status =>
    match get_application db application_id with
    | none => (db, .appNotFound)
    | some app =>
      if app.status == db_status then (db, .noChange)
      else
        let r := set_application_status db application_id db_status
        if !r.2 then (r.1, .updateFailed) else (r.1, .ok)

/-- Result of `/appsmanage flag_app` and `/appsmanage unflag_app`. -/
inductive FlagAppResult where
  | appNotFound
  | alreadyFlagged
  | notFlagged
  | updateFailed
  | ok
deriving Repr, DecidableEq

/-- Mirrors `Applications.flag_application`: only an already-flagged row is
refused; any other status is moved to `flagged`. -/
def flag_application (db : ApplicationsDb) (application_id : Nat) :
    ApplicationsDb × FlagAppResult :=
  match get_application db application_id with
  | none => (db, .appNotFound)
  | some app =>
    if app.status == "flagged" then (db, .alreadyFlagged)
    else
      let r := set_application_status db application_id "flagged"
      if !r.2 then (r.1, .updateFailed) else (r.1, .ok)

/-- Mirrors `Applications.unflag_application`: only a flagged row may be
unflagged, and it returns to the generic `submitted` state. -/
def unflag_application (db : ApplicationsDb) (application_id : Nat) :
    ApplicationsDb × FlagAppResult :=
  match get_application db application_id with
  | none => (db, .appNotFound)
  | some app =>
    if !(app.status == "flagged") then (db, .notFlagged)
    else
      let r := set_application_status db application_id "submitted"
      if !r.2 then (r.1, .updateFailed) else (r.1, .ok)

end Applications

/-- One externally triggerable operation of the pipeline (a slash command,
the DM listener, or a staff registry/catalog command), with all inputs it
reads from the outside world. -/
inductive Op where
  | applyCmd (author position_id : Nat) (dm_ok : Bool) (now : Int)
  | dmMessage (env : Env) (author : Nat) (content : String)
      (attachments : List String) (now : Int)
  | withdrawCmd (author : Nat) (application_id : Option Nat)
  | appstatusCmd (application_id : Nat) (key : String)
  | approveCmd (application_id : Nat)
  | rejectCmd (application_id : Nat) (reason : Option String)
  | flagAppCmd (application_id : Nat)
  | unflagAppCmd (application_id : Nat)
  | flagUserCmd (user flagged_by : Nat) (reason : Option String)
      (guild_id : Option Nat) (now : Int)
  | unflagUserCmd (user : Nat)
  | blacklistCmd (user blacklisted_by : Nat) (reason : Option String) (now : Int)
  | unblacklistCmd (user : Nat)
  | createPositionCmd (name : String)
  | deletePositionCmd (position_id : Nat)
  | setPositionOpenCmd (position_id : Nat) (opn : Bool)
  | setQuestionsCmd (position_id : Nat) (qs : List (List Char))
  | setRolesCmd (position_id : Nat) (roles : List Nat)
  | setChannelCmd (guild_id channel_id : Nat)

/-- State transition of one operation (outputs discarded). -/
def runOp (db : ApplicationsDb) : Op → ApplicationsDb
  | .applyCmd author position_id dm_ok now => (Applications.apply db author position_id dm_ok now).1
  | .dmMessage env author content attachments now =>
      (Applications.on_message db env author content attachments now).db
  | .withdrawCmd author application_id => (Applications.withdraw db author application_id).1
  | .appstatusCmd application_id key => (Applications.appstatus db application_id key).1
  | .approveCmd application_id => (Applications.approve db application_id).1
  | .rejectCmd application_id reason => (Applications.reject db application_id reason).1
  | .flagAppCmd application_id => (Applications.flag_application db application_id).1
  | .unflagAppCmd application_id => (Applications.unflag_application db application_id).1
  | .flagUserCmd user flagged_by reason guild_id now =>
      flag_user db user flagged_by reason guild_id now
  | .unflagUserCmd user => (unflag_user db user).1
  | .blacklistCmd user blacklisted_by reason now =>
      blacklist_user db user blacklisted_by reason now
  | .unblacklistCmd user => (unblacklist_user db user).1
  | .createPositionCmd name => (add_position db name).1
  | .deletePositionCmd position_id => remove_position db position_id
  | .setPositionOpenCmd position_id opn => set_position_open db position_id opn
  | .setQuestionsCmd position_id qs => modify_questions db position_id qs
  | .setRolesCmd position_id roles => modify_roles_given db position_id roles
  | .setChannelCmd guild_id channel_id => set_applications_channel db guild_id channel_id

/-- Database after running a sequence of operations from a fresh install. -/
def runOps (ops : List Op) : ApplicationsDb :=
  ops.foldl runOp initial_db

/-- Number of `in_progress` rows belonging to one user. -/
def inProgCount (db : ApplicationsDb) (user_id : Nat) : Nat :=
  db.applications.countP (fun r => r.user_id == user_id && r.status == "in_progress")

/-- Single-application fixture used by concrete evaluations: one row with
id 1, user 7 and the given status. -/
def sampleRow (st : String) : AppRow :=
  { application_id := 1, user_id := 7, position_id := 1, answers := "text"
    status := st, submission_date := 0 }

/-- Database holding exactly `sampleRow st`. -/
def sampleDb (st : String) : ApplicationsDb :=
  { initial_db with applications := [sampleRow st], next_application_id := 2 }

/-- Position fixture with three questions `Q1`, `Q2`, `Q3` stored in the
newline-joined raw encoding. -/
def qposRow : PosRow :=
  { position_id := 1, name := "mod", description := ""
    roles_given := [], questions := ['Q', '1', '\n', 'Q', '2', '\n', 'Q', '3']
    acceptance_message := "", rejection_message := "", openFlag := true }

/-- Database with the three-question position, a user-7 intake already in
progress, and channel 5 configured for guild 1. -/
def c1Db : ApplicationsDb :=
  { initial_db with
    positions := [qposRow], next_position_id := 2
    applications := [{ application_id := 1, user_id := 7, position_id := 1
                       answers := "", status := "in_progress", submission_date := 0 }]
    next_application_id := 2
    applications_channel := [(1, 5)] }

/-- Collaborator environment with one guild (id 1) owning channel 5. -/
def c1Env : Env :=
  { guilds := [1], guildRoles := [], channels := [5], permManageApps := [] }

/-- Database holding one empty position (id 1) and nothing else. -/
def posDb : ApplicationsDb :=
  { initial_db with
    positions := [{ position_id := 1, name := "helper", description := ""
                    roles_given := [], questions := []
                    acceptance_message := "", rejection_message := "", openFlag := true }]
    next_position_id := 2 }

/-- Database whose only content is user 7 on the blacklist. -/
def blDb : ApplicationsDb := blacklist_user initial_db 7 3 none 0

/-- Four-row fixture for the latest-submitted lookup: user 7 owns rows 1
(submitted), 2 (pending) and 3 (submitted); user 8 owns row 4 (submitted). -/
def c10Db : ApplicationsDb :=
  { initial_db with
    applications :=
      [ { application_id := 1, user_id := 7, position_id := 1, answers := "a"
          status := "submitted", submission_date := 0 }
      , { application_id := 2, user_id := 7, position_id := 1, answers := "b"
          status := "pending", submission_date := 0 }
      , { application_id := 3, user_id := 7, position_id := 2, answers := "c"
          status := "submitted", submission_date := 0 }
      , { application_id := 4, user_id := 8, position_id := 1, answers := "d"
          status := "submitted", submission_date := 0 } ]
    next_application_id := 5 }

/-- Fixture for the flagged-applicant mention: the three-question database
with user 7 additionally flagged (global flag). -/
def c8Db : ApplicationsDb :=
  { c1Db with application_flags :=
      [{ user_id := 7, flagged_by := 3, reason := none, flagged_at := 0
         guild_id := none }] }

/-- Environment for the mention fixture: guild 1 has roles 2 and 3 and
channel 5; `manage_applications` maps to the strings "2", "9" and a
non-numeric entry. -/
def c8Env : Env :=
  { guilds := [1], guildRoles := [2, 3], channels := [5]
    permManageApps := [['2'], ['9'], ['x']] }

/- Helper lemmas. -/

/-- Updating rows selected by a predicate that the update preserves
commutes with `find?` on that predicate. -/
theorem find?_map_ite {α : Type} (l : List α) (p : α → Bool) (g : α → α)
    (hg : ∀ r, p (g r) = p r) :
    (l.map (fun r => if p r then g r else r)).find? p
      = (l.find? p).map (fun r => if p r then g r else r) := by
  have hp : (p ∘ fun r => if p r then g r else r) = p := by
    funext r
    by_cases h : p r
    · simp [h, hg]
    · simp [h]
  rw [List.find?_map, hp]

/-- A `set_application_status` call with the already-stored status is a
no-op returning false. -/
theorem set_status_noop (db : ApplicationsDb) (application_id : Nat) (s : String)
    (row : AppRow) (h : get_application db application_id = some row)
    (hs : row.status = s) :
    set_application_status db application_id s = (db, false) := by
  have hfind : db.applications.find? (fun r => r.application_id == application_id)
      = some row := h
  unfold set_application_status
  rw [hfind]
  simp [hs]

/-- A `set_application_status` call with a different status commits it,
changing only the status column of the row. -/
theorem set_status_commit (db : ApplicationsDb) (application_id : Nat) (s : String)
    (row : AppRow) (h : get_application db application_id = some row)
    (hne : row.status ≠ s) :
    (set_application_status db application_id s).2 = true ∧
    get_application (set_application_status db application_id s).1 application_id
      = some { row with status := s } := by
  have hfind : db.applications.find? (fun r => r.application_id == application_id)
      = some row := h
  have hrowid : row.application_id = application_id := by
    have hx := List.find?_some hfind
    simpa using hx
  have hbe : (row.status == s) = false := by simp [hne]
  unfold set_application_status
  rw [hfind]
  simp only [hbe, Bool.false_eq_true, if_false]
  refine ⟨trivial, ?_⟩
  unfold get_application
  dsimp only
  have hfm := find?_map_ite db.applications (fun r => r.application_id == application_id)
    (fun r => { r with status := s }) (fun r => rfl)
  rw [hfm, hfind]
  simp [hrowid]

/-- C6: `set_application_status(id, s)` is an idempotent no-op returning
false when the stored status already equals `s`, leaving status, answers
and submission timestamp untouched; when it differs it commits `s` (only
the status column) and returns true, and an identical second call is a
no-op returning false. -/
theorem c6_theorem (db : ApplicationsDb) (application_id : Nat) (s : String) (row : AppRow)
    (h : get_application db application_id = some row) :
    (row.status = s → set_application_status db application_id s = (db, false)) ∧
    (row.status ≠ s →
      (set_application_status db application_id s).2 = true ∧
      statusOf (set_application_status db application_id s).1 application_id = some s ∧
      answersOf (set_application_status db application_id s).1 application_id
        = some row.answers ∧
      submissionDateOf (set_application_status db application_id s).1 application_id
        = some row.submission_date ∧
      set_application_status (set_application_status db application_id s).1 application_id s
        = ((set_application_status db application_id s).1, false)) := by
  constructor
  · intro hs
    exact set_status_noop db application_id s row h hs
  · intro hne
    obtain ⟨h2, hget⟩ := set_status_commit db application_id s row h hne
    refine ⟨h2, ?_, ?_, ?_, ?_⟩
    · simp [statusOf, hget]
    · simp [answersOf, hget]
    · simp [submissionDateOf, hget]
    · exact set_status_noop _ application_id s _ hget rfl

/-- Witness for C6 on a concrete one-row store: a same-status call is a
no-op returning false, a status-changing call commits and returns true
preserving answers and timestamp, and its repetition returns false. -/
theorem c6_witness :
    set_application_status (sampleDb "submitted") 1 "submitted"
      = (sampleDb "submitted", false) ∧
    ((set_application_status (sampleDb "submitted") 1 "accepted").2 = true ∧
      statusOf (set_application_status (sampleDb "submitted") 1 "accepted").1 1
        = some "accepted" ∧
      answersOf (set_application_status (sampleDb "submitted") 1 "accepted").1 1
        = some "text" ∧
      submissionDateOf (set_application_status (sampleDb "submitted") 1 "accepted").1 1
        = some 0 ∧
      set_application_status
          (set_application_status (sampleDb "submitted") 1 "accepted").1 1 "accepted"
        = ((set_application_status (sampleDb "submitted") 1 "accepted").1, false)) := by
  constructor
  · exact (c6_theorem (sampleDb "submitted") 1 "submitted" (sampleRow "submitted")
      (by decide)).1 rfl
  · exact (c6_theorem (sampleDb "submitted") 1 "accepted" (sampleRow "submitted")
      (by decide)).2 (by decide)

/-- C7: a blacklisted user's `/application apply` fails with the blocked
outcome and leaves the database unchanged, so no application row is
created as a side effect. -/
theorem c7_theorem (db : ApplicationsDb) (author position_id : Nat) (dm_ok : Bool)
    (now : Int) (h : is_user_blacklisted db author = true) :
    Applications.apply db author position_id dm_ok now = (db, ApplyResult.blocked) := by
  simp [Applications.apply, h]

/-- Witness for C7: user 7 of the blacklist fixture is blocked and the
store is untouched. -/
theorem c7_witness :
    Applications.apply blDb 7 1 true 0 = (blDb, ApplyResult.blocked) :=
  c7_theorem blDb 7 1 true 0 (by decide)

/-- C4 records a divergence between the claim (and the flag command's own
description) and the code: on an application whose status is `flagged`,
`approve` and `reject` do not fail — their terminal-status guard only
covers accepted/rejected/withdrawn — so the decision goes through and
overwrites the flagged status. -/
theorem c4_theorem :
    statusOf (sampleDb "flagged") 1 = some "flagged" ∧
    (Applications.approve (sampleDb "flagged") 1).2 = Applications.ReviewResult.decided ∧
    statusOf (Applications.approve (sampleDb "flagged") 1).1 1 = some "accepted" ∧
    (Applications.reject (sampleDb "flagged") 1 (some "bad fit")).2
      = Applications.ReviewResult.decided ∧
    statusOf (Applications.reject (sampleDb "flagged") 1 (some "bad fit")).1 1
      = some "rejected" := by
  decide

/-- C3 counterexample: `accepted`, `rejected` and `withdrawn` are not
terminal against the whole command surface — `appstatus` relabels an
accepted application to pending, and `flag_app` flags a withdrawn one. -/
theorem c3_counterexample :
    statusOf (sampleDb "accepted") 1 = some "accepted" ∧
    (Applications.appstatus (sampleDb "accepted") 1 "pending").2
      = Applications.AppstatusResult.ok ∧
    statusOf (Applications.appstatus (sampleDb "accepted") 1 "pending").1 1
      = some "pending" ∧
    statusOf (sampleDb "withdrawn") 1 = some "withdrawn" ∧
    (Applications.flag_application (sampleDb "withdrawn") 1).2
      = Applications.FlagAppResult.ok ∧
    statusOf (Applications.flag_application (sampleDb "withdrawn") 1).1 1
      = some "flagged" := by
  decide

/-- C3 amended: `approve`, `reject` and the user `withdraw` command do
treat accepted/rejected/withdrawn as terminal and leave the store
unchanged, but the `appstatus` relabel command and the application-flag
command perform no terminality check — `appstatus` moves a terminal
application to any different mapped status and `flag_app` flags a
non-flagged terminal application. -/
theorem c3_theorem (db : ApplicationsDb) (application_id : Nat) (app : AppRow)
    (h : get_application db application_id = some app)
    (hterm : app.status = "accepted" ∨ app.status = "rejected" ∨ app.status = "withdrawn") :
    Applications.approve db application_id
      = (db, Applications.ReviewResult.alreadyProcessed) ∧
    Applications.reject db application_id none
      = (db, Applications.ReviewResult.alreadyProcessed) ∧
    (Applications.withdraw db app.user_id (some application_id)
        = (db, Applications.WithdrawResult.alreadyWithdrawn) ∨
      Applications.withdraw db app.user_id (some application_id)
        = (db, Applications.WithdrawResult.cannotWithdraw)) ∧
    (∀ key s, Applications.status_mapping key = some s → app.status ≠ s →
      (Applications.appstatus db application_id key).2 = Applications.AppstatusResult.ok ∧
      statusOf (Applications.appstatus db application_id key).1 application_id = some s) ∧
    (app.status ≠ "flagged" →
      (Applications.flag_application db application_id).2 = Applications.FlagAppResult.ok ∧
      statusOf (Applications.flag_application db application_id).1 application_id
        = some "flagged") := by
  have hcond : (app.status == "accepted" || app.status == "rejected"
      || app.status == "withdrawn") = true := by
    rcases hterm with h1 | h1 | h1 <;> simp [h1]
  refine ⟨?_, ?_, ?_, ?_, ?_⟩
  · simp [Applications.approve, h, hcond]
  · simp [Applications.reject, h, hcond]
  · rcases hterm with h1 | h1 | h1
    · right
      simp [Applications.withdraw, Applications.withdraw_checked, h, h1]
    · right
      simp [Applications.withdraw, Applications.withdraw_checked, h, h1]
    · left
      simp [Applications.withdraw, Applications.withdraw_checked, h, h1]
  · intro key s hmap hneq
    have hbe : (app.status == s) = false := by simp [hneq]
    obtain ⟨h2, hget⟩ := set_status_commit db application_id s app h hneq
    constructor
    · simp [Applications.appstatus, hmap, h, hbe, h2]
    · simp [Applications.appstatus, hmap, h, hbe, h2, statusOf, hget]
  · intro hneq
    have hbe : (app.status == "flagged") = false := by simp [hneq]
    obtain ⟨h2, hget⟩ := set_status_commit db application_id "flagged" app h hneq
    constructor
    · simp [Applications.flag_application, h, hbe, h2]
    · simp [Applications.flag_application, h, hbe, h2, statusOf, hget]

/-- Witness for C3 amended on the accepted one-row fixture: decisions and
withdrawal refuse, relabel-to-pending and flagging go through. -/
theorem c3_witness :
    Applications.approve (sampleDb "accepted") 1
      = (sampleDb "accepted", Applications.ReviewResult.alreadyProcessed) ∧
    Applications.reject (sampleDb "accepted") 1 none
      = (sampleDb "accepted", Applications.ReviewResult.alreadyProcessed) ∧
    (Applications.withdraw (sampleDb "accepted") 7 (some 1)
        = (sampleDb "accepted", Applications.WithdrawResult.alreadyWithdrawn) ∨
      Applications.withdraw (sampleDb "accepted") 7 (some 1)
        = (sampleDb "accepted", Applications.WithdrawResult.cannotWithdraw)) ∧
    ((Applications.appstatus (sampleDb "accepted") 1 "pending").2
        = Applications.AppstatusResult.ok ∧
      statusOf (Applications.appstatus (sampleDb "accepted") 1 "pending").1 1
        = some "pending") ∧
    ((Applications.flag_application (sampleDb "accepted") 1).2
        = Applications.FlagAppResult.ok ∧
      statusOf (Applications.flag_application (sampleDb "accepted") 1).1 1
        = some "flagged") := by
  have h := c3_theorem (sampleDb "accepted") 1 (sampleRow "accepted") (by decide)
    (Or.inl rfl)
  exact ⟨h.1, h.2.1, h.2.2.1,
    h.2.2.2.1 "pending" "pending" (by decide) (by decide),
    h.2.2.2.2 (by decide)⟩

/-- Id-maximum scan never invents rows: a result is in the list or was
already the accumulator. -/
theorem latest_foldl_mem : ∀ (l : List AppRow) (acc : Option AppRow) (r : AppRow),
    l.foldl latest_step acc = some r → r ∈ l ∨ acc = some r := by
  intro l
  induction l with
  | nil =>
    intro acc r h
    exact Or.inr h
  | cons a t ih =>
    intro acc r h
    simp only [List.foldl_cons] at h
    rcases ih (latest_step acc a) r h with hm | he
    · exact Or.inl (List.mem_cons_of_mem _ hm)
    · cases acc with
      | none =>
        simp only [latest_step] at he
        cases he
        exact Or.inl (List.mem_cons_self _ _)
      | some b =>
        by_cases hlt : b.application_id < a.application_id
        · simp only [latest_step, if_pos hlt] at he
          cases he
          exact Or.inl (List.mem_cons_self _ _)
        · simp only [latest_step, if_neg hlt] at he
          exact Or.inr he

/-- Id-maximum scan dominates every list element and the accumulator. -/
theorem latest_foldl_ge : ∀ (l : List AppRow) (acc : Option AppRow) (r : AppRow),
    l.foldl latest_step acc = some r →
    (∀ x ∈ l, x.application_id ≤ r.application_id) ∧
    (∀ b, acc = some b → b.application_id ≤ r.application_id) := by
  intro l
  induction l with
  | nil =>
    intro acc r h
    refine ⟨by simp, ?_⟩
    intro b hb
    rw [hb] at h
    cases h
    exact Nat.le_refl _
  | cons a t ih =>
    intro acc r h
    simp only [List.foldl_cons] at h
    obtain ⟨h1, h2⟩ := ih (latest_step acc a) r h
    have ha : a.application_id ≤ r.application_id := by
      cases acc with
      | none => exact h2 a rfl
      | some b =>
        by_cases hlt : b.application_id < a.application_id
        · exact h2 a (by simp [latest_step, if_pos hlt])
        · have hbr := h2 b (by simp [latest_step, if_neg hlt])
          omega
    refine ⟨?_, ?_⟩
    · intro x hx
      rcases List.mem_cons.mp hx with rfl | hx'
      · exact ha
      · exact h1 x hx'
    · intro b hb
      subst hb
      by_cases hlt : b.application_id < a.application_id
      · omega
      · exact h2 b (by simp [latest_step, if_neg hlt])

/-- One id-maximum step never returns `none`. -/
theorem latest_step_ne_none (acc : Option AppRow) (a : AppRow) :
    latest_step acc a ≠ none := by
  cases acc with
  | none => simp [latest_step]
  | some b =>
    simp only [latest_step]
    split <;> simp

/-- Id-maximum scan returns `none` exactly on an empty input. -/
theorem latest_foldl_none : ∀ (l : List AppRow) (acc : Option AppRow),
    l.foldl latest_step acc = none → acc = none ∧ l = [] := by
  intro l
  induction l with
  | nil =>
    intro acc h
    exact ⟨h, rfl⟩
  | cons a t ih =>
    intro acc h
    simp only [List.foldl_cons] at h
    obtain ⟨hstep, _⟩ := ih (latest_step acc a) h
    exact absurd hstep (latest_step_ne_none acc a)

/-- C10: the lookup behind withdraw-without-id and status-check returns
the greatest-id row of the user whose status is exactly `submitted`, and
nothing when the user has no such row — rows in other awaiting-decision
states are never returned. -/
theorem c10_theorem (db : ApplicationsDb) (user_id : Nat) :
    (∀ r, get_latest_submitted_application db user_id = some r →
      r.user_id = user_id ∧ r.status = "submitted" ∧ r ∈ db.applications ∧
      ∀ x ∈ db.applications, x.user_id = user_id → x.status = "submitted" →
        x.application_id ≤ r.application_id) ∧
    (get_latest_submitted_application db user_id = none ↔
      ∀ x ∈ db.applications, ¬(x.user_id = user_id ∧ x.status = "submitted")) := by
  constructor
  · intro r h
    unfold get_latest_submitted_application latest_by_id at h
    rcases latest_foldl_mem _ _ _ h with hm | he
    · obtain ⟨hr1, hr2⟩ := List.mem_filter.mp hm
      simp only [Bool.and_eq_true, beq_iff_eq] at hr2
      refine ⟨hr2.1, hr2.2, hr1, ?_⟩
      intro x hx hxu hxs
      exact (latest_foldl_ge _ _ _ h).1 x
        (List.mem_filter.mpr ⟨hx, by simp [hxu, hxs]⟩)
    · exact absurd he (by simp)
  · constructor
    · intro h x hx hpx
      unfold get_latest_submitted_application latest_by_id at h
      have hempty := (latest_foldl_none _ _ h).2
      have hmem : x ∈ db.applications.filter
          (fun r => r.user_id == user_id && r.status == "submitted") :=
        List.mem_filter.mpr ⟨hx, by simp [hpx.1, hpx.2]⟩
      rw [hempty] at hmem
      cases hmem
    · intro h
      unfold get_latest_submitted_application latest_by_id
      have hempty : db.applications.filter
          (fun r => r.user_id == user_id && r.status == "submitted") = [] := by
        rw [List.filter_eq_nil_iff]
        intro a ha
        have := h a ha
        simp only [Bool.and_eq_true, beq_iff_eq]
        intro hcontra
        exact this hcontra
      rw [hempty]
      rfl

/-- Witness for C10 on the four-row fixture: user 7 resolves to row 3, the
greatest submitted id, skipping the pending row 2 and user 8's row. -/
theorem c10_witness :
    ({ application_id := 3, user_id := 7, position_id := 2, answers := "c"
       status := "submitted", submission_date := 0 } : AppRow).user_id = 7 ∧
    ({ application_id := 3, user_id := 7, position_id := 2, answers := "c"
       status := "submitted", submission_date := 0 } : AppRow).status = "submitted" ∧
    ({ application_id := 3, user_id := 7, position_id := 2, answers := "c"
       status := "submitted", submission_date := 0 } : AppRow) ∈ c10Db.applications ∧
    ∀ x ∈ c10Db.applications, x.user_id = 7 → x.status = "submitted" →
      x.application_id ≤ ({ application_id := 3, user_id := 7, position_id := 2
                            answers := "c", status := "submitted"
                            submission_date := 0 } : AppRow).application_id :=
  (c10_theorem c10Db 7).1
    { application_id := 3, user_id := 7, position_id := 2, answers := "c"
      status := "submitted", submission_date := 0 } (by decide)

/-- Updating some rows to a non-in-progress shape never increases the
in-progress count of any user. -/
theorem countP_inprog_map_le (l : List AppRow) (application_id u : Nat)
    (g : AppRow → AppRow) (hg : ∀ r, (g r).status ≠ "in_progress") :
    (l.map (fun r => if r.application_id == application_id then g r else r)).countP
        (fun r => r.user_id == u && r.status == "in_progress")
      ≤ l.countP (fun r => r.user_id == u && r.status == "in_progress") := by
  rw [List.countP_map]
  refine List.countP_mono_left ?_
  intro r _ hpr
  simp only [Function.comp_apply] at hpr
  by_cases hid : (r.application_id == application_id) = true
  · rw [if_pos hid] at hpr
    simp only [Bool.and_eq_true, beq_iff_eq] at hpr
    exact absurd hpr.2 (hg r)
  · rw [if_neg hid] at hpr
    exact hpr

/-- The database after `set_application_status` is either unchanged or a
pointwise status rewrite of the selected rows. -/
theorem set_status_db_cases (db : ApplicationsDb) (application_id : Nat) (s : String) :
    (set_application_status db application_id s).1 = db ∨
    (set_application_status db application_id s).1
      = { db with applications :=
          db.applications.map (fun r =>
            if r.application_id == application_id then { r with status := s } else r) } := by
  unfold set_application_status
  cases db.applications.find? (fun r => r.application_id == application_id) with
  | none => exact Or.inl rfl
  | some row =>
    by_cases hbe : (row.status == s) = true
    · simp [hbe]
    · simp [hbe]

/-- A status write with a non-in-progress status never increases any
user's in-progress count. -/
theorem inProg_set_status_le (db : ApplicationsDb) (application_id : Nat) (s : String)
    (hs : s ≠ "in_progress") (u : Nat) :
    inProgCount (set_application_status db application_id s).1 u ≤ inProgCount db u := by
  rcases set_status_db_cases db application_id s with h | h <;> rw [h]
  unfold inProgCount
  dsimp only
  exact countP_inprog_map_le db.applications application_id u
    (fun r => { r with status := s }) (fun r => hs)

/-- The database after `withdraw_application` is either unchanged or a
pointwise status rewrite to `withdrawn`. -/
theorem withdraw_app_db_cases (db : ApplicationsDb) (application_id : Nat) :
    (withdraw_application db application_id).1 = db ∨
    (withdraw_application db application_id).1
      = { db with applications :=
          db.applications.map (fun r =>
            if r.application_id == application_id then
              { r with status := "withdrawn" } else r) } := by
  unfold withdraw_application
  cases db.applications.find? (fun r => r.application_id == application_id) with
  | none => exact Or.inl rfl
  | some row =>
    by_cases hbe : (row.status == "withdrawn") = true
    · simp [hbe]
    · simp [hbe]

/-- Withdrawing never increases any user's in-progress count. -/
theorem inProg_withdraw_le (db : ApplicationsDb) (application_id u : Nat) :
    inProgCount (withdraw_application db application_id).1 u ≤ inProgCount db u := by
  rcases withdraw_app_db_cases db application_id with h | h <;> rw [h]
  unfold inProgCount
  dsimp only
  exact countP_inprog_map_le db.applications application_id u
    (fun r => { r with status := "withdrawn" }) (fun r => by simp)

/-- The database after `submit_application` is unchanged, a deletion, or a
pointwise rewrite of the selected rows to `submitted`. -/
theorem submit_db_cases (db : ApplicationsDb) (u0 : Nat) (ans : String) (now : Int) :
    (submit_application db u0 ans now).1 = db ∨
    (∃ i, (submit_application db u0 ans now).1
      = { db with applications :=
          db.applications.filter (fun r => !(r.application_id == i)) }) ∨
    (∃ i, (submit_application db u0 ans now).1
      = { db with applications :=
          db.applications.map (fun r =>
            if r.application_id == i then
              { r with answers := ans, status := "submitted", submission_date := now }
            else r) }) := by
  unfold submit_application
  cases get_in_progress_application db u0 with
  | none => exact Or.inl rfl
  | some row =>
    by_cases hexp : now - row.submission_date > 86400
    · exact Or.inr (Or.inl ⟨row.application_id, by simp [hexp]⟩)
    · exact Or.inr (Or.inr ⟨row.application_id, by simp [hexp]⟩)

/-- Submitting never increases any user's in-progress count. -/
theorem inProg_submit_le (db : ApplicationsDb) (u0 : Nat) (ans : String) (now : Int)
    (u : Nat) :
    inProgCount (submit_application db u0 ans now).1 u ≤ inProgCount db u := by
  rcases submit_db_cases db u0 ans now with h | ⟨i, h⟩ | ⟨i, h⟩ <;> rw [h]
  · unfold inProgCount
    dsimp only
    have hsub : List.Sublist
        (db.applications.filter (fun r => !(r.application_id == i))) db.applications :=
      List.filter_sublist db.applications
    exact hsub.countP_le _
  · unfold inProgCount
    dsimp only
    exact countP_inprog_map_le db.applications i u
      (fun r => { r with answers := ans, status := "submitted", submission_date := now })
      (fun r => by simp)

/-- Starting an intake keeps every user's in-progress count at most one:
the new user ends at exactly one row, everyone else is untouched. -/
theorem inProg_start (db : ApplicationsDb) (u0 p : Nat) (now : Int)
    (hinv : ∀ v, inProgCount db v ≤ 1) (v : Nat) :
    inProgCount (start_application db u0 p now).1 v ≤ 1 := by
  unfold start_application inProgCount
  dsimp only
  rw [List.countP_append]
  by_cases hv : u0 = v
  · subst hv
    have h0 : (db.applications.filter
        (fun r => !(r.user_id == u0 && r.status == "in_progress"))).countP
        (fun r => r.user_id == u0 && r.status == "in_progress") = 0 := by
      rw [List.countP_eq_zero]
      intro a ha hcontra
      have hkeep := (List.mem_filter.mp ha).2
      rw [hcontra] at hkeep
      cases hkeep
    rw [h0]
    rw [List.countP_singleton]
    split <;> omega
  · have h1 : (List.countP (fun r => r.user_id == v && r.status == "in_progress")
        [({ application_id := db.next_application_id, user_id := u0, position_id := p
            answers := "", status := "in_progress", submission_date := now } : AppRow)]) = 0 := by
      rw [List.countP_singleton]
      simp [hv]
    rw [h1]
    have hsub : List.Sublist
        (db.applications.filter
          (fun r => !(r.user_id == u0 && r.status == "in_progress")))
        db.applications :=
      List.filter_sublist db.applications
    have h2 := hsub.countP_le (fun r => r.user_id == v && r.status == "in_progress")
    have h3 := hinv v
    unfold inProgCount at h3
    omega

/-- The mapped database status of a relabel key is never `in_progress`. -/
theorem status_mapping_ne (key s : String)
    (h : Applications.status_mapping key = some s) : s ≠ "in_progress" := by
  intro hcontra
  subst hcontra
  unfold Applications.status_mapping at h
  repeat' split at h
  all_goals
    first
    | exact absurd (Option.some.inj h) (by decide)
    | exact Option.noConfusion h

/-- The database after `appstatus` is unchanged or a status write of the
mapped status. -/
theorem appstatus_db_cases (db : ApplicationsDb) (application_id : Nat) (key : String) :
    (Applications.appstatus db application_id key).1 = db ∨
    ∃ s, Applications.status_mapping key = some s ∧
      (Applications.appstatus db application_id key).1
        = (set_application_status db application_id s).1 := by
  unfold Applications.appstatus
  cases hmap : Applications.status_mapping key with
  | none => exact Or.inl rfl
  | some s =>
    cases get_application db application_id with
    | none => exact Or.inl rfl
    | some app =>
      by_cases hbe : (app.status == s) = true
      · simp [hbe]
      · refine Or.inr ⟨s, rfl, ?_⟩
        by_cases h2 : (set_application_status db application_id s).2 = true <;>
          simp [hbe, h2]

/-- The database after `approve` is unchanged or a write of `accepted`. -/
theorem approve_db_cases (db : ApplicationsDb) (application_id : Nat) :
    (Applications.approve db application_id).1 = db ∨
    (Applications.approve db application_id).1
      = (set_application_status db application_id "accepted").1 := by
  unfold Applications.approve
  cases get_application db application_id with
  | none => exact Or.inl rfl
  | some app =>
    by_cases hterm : (app.status == "accepted" || app.status == "rejected"
        || app.status == "withdrawn") = true
    · simp [hterm]
    · right
      by_cases h2 : (set_application_status db application_id "accepted").2 = true <;>
        simp [hterm, h2]

/-- The database after `reject` is unchanged or a write of `rejected`. -/
theorem reject_db_cases (db : ApplicationsDb) (application_id : Nat)
    (reason : Option String) :
    (Applications.reject db application_id reason).1 = db ∨
    (Applications.reject db application_id reason).1
      = (set_application_status db application_id "rejected").1 := by
  unfold Applications.reject
  cases get_application db application_id with
  | none => exact Or.inl rfl
  | some app =>
    by_cases hterm : (app.status == "accepted" || app.status == "rejected"
        || app.status == "withdrawn") = true
    · simp [hterm]
    · right
      by_cases h2 : (set_application_status db application_id "rejected").2 = true <;>
        simp [hterm, h2]

/-- The database after `flag_app` is unchanged or a write of `flagged`. -/
theorem flag_app_db_cases (db : ApplicationsDb) (application_id : Nat) :
    (Applications.flag_application db application_id).1 = db ∨
    (Applications.flag_application db application_id).1
      = (set_application_status db application_id "flagged").1 := by
  unfold Applications.flag_application
  cases get_application db application_id with
  | none => exact Or.inl rfl
  | some app =>
    by_cases hbe : (app.status == "flagged") = true
    · simp [hbe]
    · right
      by_cases h2 : (set_application_status db application_id "flagged").2 = true <;>
        simp [hbe, h2]

/-- The database after `unflag_app` is unchanged or a write of `submitted`. -/
theorem unflag_app_db_cases (db : ApplicationsDb) (application_id : Nat) :
    (Applications.unflag_application db application_id).1 = db ∨
    (Applications.unflag_application db application_id).1
      = (set_application_status db application_id "submitted").1 := by
  unfold Applications.unflag_application
  cases get_application db application_id with
  | none => exact Or.inl rfl
  | some app =>
    by_cases hbe : (app.status == "flagged") = true
    · right
      by_cases h2 : (set_application_status db application_id "submitted").2 = true <;>
        simp [hbe, h2]
    · simp [hbe]

/-- The database after the checked part of `withdraw` is unchanged or a
`withdraw_application` write. -/
theorem withdraw_checked_db_cases (db : ApplicationsDb) (author : Nat) (app : AppRow) :
    (Applications.withdraw_checked db author app).1 = db ∨
    (Applications.withdraw_checked db author app).1
      = (withdraw_application db app.application_id).1 := by
  unfold Applications.withdraw_checked
  by_cases h1 : (app.user_id == author) = true
  · by_cases h2 : (app.status == "withdrawn") = true
    · simp [h1, h2]
    · by_cases h3 : (app.status == "accepted" || app.status == "rejected") = true
      · simp [h1, h2, h3]
      · right
        by_cases h4 : (withdraw_application db app.application_id).2 = true <;>
          simp [h1, h2, h3, h4]
  · simp [h1]

/-- The database after the withdraw command is unchanged or a
`withdraw_application` write. -/
theorem withdraw_db_cases (db : ApplicationsDb) (author : Nat)
    (application_id : Option Nat) :
    (Applications.withdraw db author application_id).1 = db ∨
    ∃ i, (Applications.withdraw db author application_id).1
      = (withdraw_application db i).1 := by
  cases application_id with
  | some i =>
    unfold Applications.withdraw
    dsimp only
    cases hget : get_application db i with
    | none => exact Or.inl rfl
    | some app =>
      rcases withdraw_checked_db_cases db author app with h | h
      · exact Or.inl h
      · exact Or.inr ⟨app.application_id, h⟩
  | none =>
    unfold Applications.withdraw
    dsimp only
    cases hget : get_latest_submitted_application db author with
    | none => exact Or.inl rfl
    | some app =>
      rcases withdraw_checked_db_cases db author app with h | h
      · exact Or.inl h
      · exact Or.inr ⟨app.application_id, h⟩

/-- The database after the apply command is unchanged or a
`start_application` insert. -/
theorem apply_db_cases (db : ApplicationsDb) (author position_id : Nat) (dm_ok : Bool)
    (now : Int) :
    (Applications.apply db author position_id dm_ok now).1 = db ∨
    (Applications.apply db author position_id dm_ok now).1
      = (start_application db author position_id now).1 := by
  unfold Applications.apply
  by_cases hb : is_user_blacklisted db author = true
  · simp [hb]
  · cases get_position db position_id with
    | none => simp [hb]
    | some position =>
      by_cases ho : position.openFlag = true
      · by_cases hd : dm_ok = true
        · simp [hb, ho, hd]
        · simp [hb, ho, hd]
      · simp [hb, ho]

/-- The database after the DM listener is unchanged or a
`submit_application` write. -/
theorem on_message_db_cases (db : ApplicationsDb) (env : Env) (author : Nat)
    (content : String) (attachments : List String) (now : Int) :
    (Applications.on_message db env author content attachments now).db = db ∨
    ∃ ans, (Applications.on_message db env author content attachments now).db
      = (submit_application db author ans now).1 := by
  unfold Applications.on_message
  cases get_in_progress_application db author with
  | none => exact Or.inl rfl
  | some row =>
    right
    refine ⟨if attachments.isEmpty then content
      else (content ++ "\n\nAttachments:\n" ++ String.intercalate "\n" attachments).trim, ?_⟩
    dsimp only
    rcases hsub : submit_application db author (if attachments.isEmpty then content
      else (content ++ "\n\nAttachments:\n" ++ String.intercalate "\n" attachments).trim) now
      with ⟨db1, res⟩
    cases res with
    | no_in_progress => rfl
    | expired => rfl
    | ok a b =>
      dsimp only
      cases env.guilds with
      | nil => rfl
      | cons g gs =>
        dsimp only
        cases get_applications_channel db1 g with
        | none => rfl
        | some ch =>
          dsimp only
          by_cases hcc : (!env.channels.contains ch) = true
          · rw [if_pos hcc]
          · rw [if_neg hcc]

/-- Every operation preserves the at-most-one-in-progress invariant. -/
theorem runOp_preserves (db : ApplicationsDb) (op : Op)
    (hinv : ∀ v, inProgCount db v ≤ 1) : ∀ v, inProgCount (runOp db op) v ≤ 1 := by
  intro v
  cases op with
  | applyCmd a pid dm now =>
    rcases apply_db_cases db a pid dm now with h | h
    · show inProgCount (Applications.apply db a pid dm now).1 v ≤ 1
      rw [h]; exact hinv v
    · show inProgCount (Applications.apply db a pid dm now).1 v ≤ 1
      rw [h]; exact inProg_start db a pid now hinv v
  | dmMessage env a c atts now =>
    rcases on_message_db_cases db env a c atts now with h | ⟨ans, h⟩
    · show inProgCount (Applications.on_message db env a c atts now).db v ≤ 1
      rw [h]; exact hinv v
    · show inProgCount (Applications.on_message db env a c atts now).db v ≤ 1
      rw [h]; exact le_trans (inProg_submit_le db a ans now v) (hinv v)
  | withdrawCmd a tid =>
    rcases withdraw_db_cases db a tid with h | ⟨i, h⟩
    · show inProgCount (Applications.withdraw db a tid).1 v ≤ 1
      rw [h]; exact hinv v
    · show inProgCount (Applications.withdraw db a tid).1 v ≤ 1
      rw [h]; exact le_trans (inProg_withdraw_le db i v) (hinv v)
  | appstatusCmd i key =>
    rcases appstatus_db_cases db i key with h | ⟨s, hmap, h⟩
    · show inProgCount (Applications.appstatus db i key).1 v ≤ 1
      rw [h]; exact hinv v
    · show inProgCount (Applications.appstatus db i key).1 v ≤ 1
      rw [h]
      exact le_trans (inProg_set_status_le db i s (status_mapping_ne key s hmap) v) (hinv v)
  | approveCmd i =>
    rcases approve_db_cases db i with h | h
    · show inProgCount (Applications.approve db i).1 v ≤ 1
      rw [h]; exact hinv v
    · show inProgCount (Applications.approve db i).1 v ≤ 1
      rw [h]; exact le_trans (inProg_set_status_le db i "accepted" (by decide) v) (hinv v)
  | rejectCmd i reason =>
    rcases reject_db_cases db i reason with h | h
    · show inProgCount (Applications.reject db i reason).1 v ≤ 1
      rw [h]; exact hinv v
    · show inProgCount (Applications.reject db i reason).1 v ≤ 1
      rw [h]; exact le_trans (inProg_set_status_le db i "rejected" (by decide) v) (hinv v)
  | flagAppCmd i =>
    rcases flag_app_db_cases db i with h | h
    · show inProgCount (Applications.flag_application db i).1 v ≤ 1
      rw [h]; exact hinv v
    · show inProgCount (Applications.flag_application db i).1 v ≤ 1
      rw [h]; exact le_trans (inProg_set_status_le db i "flagged" (by decide) v) (hinv v)
  | unflagAppCmd i =>
    rcases unflag_app_db_cases db i with h | h
    · show inProgCount (Applications.unflag_application db i).1 v ≤ 1
      rw [h]; exact hinv v
    · show inProgCount (Applications.unflag_application db i).1 v ≤ 1
      rw [h]; exact le_trans (inProg_set_status_le db i "submitted" (by decide) v) (hinv v)
  | flagUserCmd a b r g now => exact hinv v
  | unflagUserCmd a => exact hinv v
  | blacklistCmd a b r now => exact hinv v
  | unblacklistCmd a => exact hinv v
  | createPositionCmd name => exact hinv v
  | deletePositionCmd i => exact hinv v
  | setPositionOpenCmd i o => exact hinv v
  | setQuestionsCmd i qs => exact hinv v
  | setRolesCmd i rs => exact hinv v
  | setChannelCmd g c => exact hinv v

/-- C2: for every user and after every sequence of operations from a fresh
install — including repeated starts — at most one application row of that
user has status `in_progress`; `start_application` deletes any prior
in-progress row and inserts the new one in a single step. -/
theorem c2_theorem : ∀ (ops : List Op) (v : Nat), inProgCount (runOps ops) v ≤ 1 := by
  have hstep : ∀ (ops : List Op) (db : ApplicationsDb), (∀ v, inProgCount db v ≤ 1) →
      ∀ v, inProgCount (ops.foldl runOp db) v ≤ 1 := by
    intro ops
    induction ops with
    | nil => intro db h v; exact h v
    | cons op rest ih =>
      intro db h v
      exact ih (runOp db op) (runOp_preserves db op h) v
  intro ops v
  exact hstep ops initial_db (fun w => by simp [inProgCount, initial_db]) v

/-- After `start_application`, the user's in-progress lookup finds exactly
the freshly inserted row. -/
theorem get_in_progress_after_start (db : ApplicationsDb) (u p : Nat) (now : Int) :
    get_in_progress_application (start_application db u p now).1 u =
      some { application_id := db.next_application_id, user_id := u, position_id := p
             answers := "", status := "in_progress", submission_date := now } := by
  unfold get_in_progress_application start_application latest_by_id
  dsimp only
  rw [List.filter_append]
  have h1 : (db.applications.filter
      (fun r => !(r.user_id == u && r.status == "in_progress"))).filter
      (fun r => r.user_id == u && r.status == "in_progress") = [] := by
    rw [List.filter_eq_nil_iff]
    intro a ha hcontra
    have h2 := (List.mem_filter.mp ha).2
    rw [hcontra] at h2
    cases h2
  rw [h1, List.nil_append]
  simp [latest_step]

/-- A submission inside the 24-hour window succeeds and rewrites exactly
the answers, status and timestamp of the in-progress row. -/
theorem submit_ok_fields (db : ApplicationsDb) (u : Nat) (t : String) (now : Int)
    (row : AppRow) (hprog : get_in_progress_application db u = some row)
    (hfresh : ¬(now - row.submission_date > 86400)) :
    (submit_application db u t now).2
      = SubmitResult.ok row.application_id row.position_id ∧
    statusOf (submit_application db u t now).1 row.application_id = some "submitted" ∧
    answersOf (submit_application db u t now).1 row.application_id = some t := by
  have hsub : submit_application db u t now
      = ({ db with applications :=
            db.applications.map (fun r =>
              if r.application_id == row.application_id then
                { r with answers := t, status := "submitted", submission_date := now }
              else r) }, SubmitResult.ok row.application_id row.position_id) := by
    unfold submit_application
    rw [hprog]
    dsimp only
    rw [if_neg hfresh]
  have hrowmem : row ∈ db.applications := by
    unfold get_in_progress_application latest_by_id at hprog
    rcases latest_foldl_mem _ _ _ hprog with hm | he
    · exact (List.mem_filter.mp hm).1
    · exact absurd he (by simp)
  have hsome : (db.applications.find?
      (fun r => r.application_id == row.application_id)).isSome :=
    List.find?_isSome.mpr ⟨row, hrowmem, by simp⟩
  obtain ⟨y, hy⟩ := Option.isSome_iff_exists.mp hsome
  have hpy : y.application_id = row.application_id := by
    have hx := List.find?_some hy
    simpa using hx
  have hfm := find?_map_ite db.applications
    (fun r => r.application_id == row.application_id)
    (fun r => { r with answers := t, status := "submitted", submission_date := now })
    (fun r => rfl)
  refine ⟨by rw [hsub], ?_, ?_⟩
  · rw [hsub]
    unfold statusOf get_application
    dsimp only
    rw [hfm, hy]
    simp [hpy]
  · rw [hsub]
    unfold answersOf get_application
    dsimp only
    rw [hfm, hy]
    simp [hpy]

/-- For an attachment-free DM of a user with an in-progress row, the
database after the listener is exactly the database after
`submit_application` on the message text. -/
theorem on_message_db_eq (db : ApplicationsDb) (env : Env) (author : Nat) (t : String)
    (now : Int) (row : AppRow)
    (hprog : get_in_progress_application db author = some row) :
    (Applications.on_message db env author t [] now).db
      = (submit_application db author t now).1 := by
  unfold Applications.on_message
  rw [hprog]
  dsimp only
  rw [show (if ([] : List String).isEmpty = true then t
      else (t ++ "\n\nAttachments:\n" ++ String.intercalate "\n" ([] : List String)).trim) = t
    from rfl]
  rcases hsub : submit_application db author t now with ⟨db1, res⟩
  cases res with
  | no_in_progress => rfl
  | expired => rfl
  | ok a b =>
    dsimp only
    cases env.guilds with
    | nil => rfl
    | cons g gs =>
      dsimp only
      cases get_applications_channel db1 g with
      | none => rfl
      | some ch =>
        dsimp only
        by_cases hcc : (!env.channels.contains ch) = true
        · rw [if_pos hcc]
        · rw [if_neg hcc]

/-- C5: a submission attempt against an in-progress row older than 24
hours fails expired, deletes the stale row (a later `get` finds nothing),
and a subsequent start by the same user succeeds cleanly, both at the
store level and through the apply command when its other guards pass. -/
theorem c5_theorem (db : ApplicationsDb) (user_id : Nat) (row : AppRow) (ans : String)
    (now : Int)
    (hrow : get_in_progress_application db user_id = some row)
    (hold : now - row.submission_date > 86400) :
    (submit_application db user_id ans now).2 = SubmitResult.expired ∧
    get_application (submit_application db user_id ans now).1 row.application_id = none ∧
    (∀ p now2, get_in_progress_application
        (start_application (submit_application db user_id ans now).1 user_id p now2).1
        user_id
      = some { application_id := (submit_application db user_id ans now).1.next_application_id
               user_id := user_id, position_id := p, answers := ""
               status := "in_progress", submission_date := now2 }) ∧
    (∀ p pos now2, is_user_blacklisted db user_id = false →
      get_position db p = some pos → pos.openFlag = true →
      Applications.apply (submit_application db user_id ans now).1 user_id p true now2
        = ((start_application (submit_application db user_id ans now).1 user_id p now2).1,
           ApplyResult.started (submit_application db user_id ans now).1.next_application_id)) := by
  have hsub : submit_application db user_id ans now
      = ({ db with applications :=
            db.applications.filter (fun r => !(r.application_id == row.application_id)) },
         SubmitResult.expired) := by
    unfold submit_application
    rw [hrow]
    dsimp only
    rw [if_pos hold]
  refine ⟨by rw [hsub], ?_, ?_, ?_⟩
  · rw [hsub]
    unfold get_application
    dsimp only
    refine List.find?_eq_none.mpr ?_
    intro x hx hcontra
    have h2 := (List.mem_filter.mp hx).2
    rw [hcontra] at h2
    cases h2
  · intro p now2
    rw [hsub]
    exact get_in_progress_after_start _ user_id p now2
  · intro p pos now2 hbl hpos hopen
    rw [hsub]
    have hbl2 : is_user_blacklisted
        ({ db with applications :=
          db.applications.filter (fun r => !(r.application_id == row.application_id)) })
        user_id = false := hbl
    have hpos2 : get_position
        ({ db with applications :=
          db.applications.filter (fun r => !(r.application_id == row.application_id)) })
        p = some pos := hpos
    unfold Applications.apply
    rw [hbl2, hpos2]
    dsimp only
    rw [hopen]
    rfl

/-- Witness for C5: user 7's intake from time 0 answered at time 90000
fails expired, row 1 is gone, and both a raw restart and the apply
command succeed cleanly afterwards. -/
theorem c5_witness :
    (submit_application c1Db 7 "late" 90000).2 = SubmitResult.expired ∧
    get_application (submit_application c1Db 7 "late" 90000).1 1 = none ∧
    get_in_progress_application
        (start_application (submit_application c1Db 7 "late" 90000).1 7 1 100000).1 7
      = some { application_id := 2, user_id := 7, position_id := 1, answers := ""
               status := "in_progress", submission_date := 100000 } ∧
    Applications.apply (submit_application c1Db 7 "late" 90000).1 7 1 true 100000
      = ((start_application (submit_application c1Db 7 "late" 90000).1 7 1 100000).1,
         ApplyResult.started 2) := by
  have h := c5_theorem c1Db 7
    { application_id := 1, user_id := 7, position_id := 1, answers := ""
      status := "in_progress", submission_date := 0 } "late" 90000 (by decide) (by decide)
  exact ⟨h.1, h.2.1, h.2.2.1 1 100000,
    h.2.2.2 1 (position_from_row qposRow) 100000 (by decide) (by decide) (by decide)⟩

/-- C1 counterexample: with questions `[Q1, Q2, Q3]` and an intake in
progress, the first DM answer `a` does not produce a `Question 2` prompt
with the state still in progress — the listener submits immediately: the
status becomes `submitted` with the whole answers blob equal to `a`, the
in-progress row is gone, and the only DM reply is the submission notice. -/
theorem c1_counterexample :
    statusOf (Applications.on_message c1Db c1Env 7 "a" [] 100).db 1 = some "submitted" ∧
    answersOf (Applications.on_message c1Db c1Env 7 "a" [] 100).db 1 = some "a" ∧
    get_in_progress_application (Applications.on_message c1Db c1Env 7 "a" [] 100).db 7
      = none ∧
    (Applications.on_message c1Db c1Env 7 "a" [] 100).replies
      = [Reply.submittedThanks] ∧
    (Applications.on_message c1Db c1Env 7 "a" [] 100).posts
      = [Post.submissionEmbed 1 1 "a"] := by
  decide

/-- C1 amended: the intake is single-message, not per-question. For a
position with questions `[Q1, Q2, Q3]`, a successful apply shows all three
questions at once in one prompt (fields `Question 1`..`Question 3`), and
the applicant's first DM `t` submits the whole application: the status
becomes `submitted` and the stored answers blob is `t` itself. -/
theorem c1_theorem (db : ApplicationsDb) (env : Env) (u pid : Nat) (pos : Position)
    (q1 q2 q3 : List Char) (t : String) (now now2 : Int)
    (hbl : is_user_blacklisted db u = false)
    (hpos : get_position db pid = some pos)
    (hopen : pos.openFlag = true)
    (hq : pos.questions = [q1, q2, q3])
    (hfresh : now2 - now ≤ 86400) :
    Applications.applyPromptFields pos
      = [("Question 1", q1), ("Question 2", q2), ("Question 3", q3)] ∧
    Applications.apply db u pid true now
      = ((start_application db u pid now).1, ApplyResult.started db.next_application_id) ∧
    statusOf (Applications.on_message (start_application db u pid now).1 env u t [] now2).db
        db.next_application_id = some "submitted" ∧
    answersOf (Applications.on_message (start_application db u pid now).1 env u t [] now2).db
        db.next_application_id = some t := by
  have hprog := get_in_progress_after_start db u pid now
  have hfresh2 : ¬((now2 : Int) - now > 86400) := by omega
  have hfields := submit_ok_fields (start_application db u pid now).1 u t now2
    { application_id := db.next_application_id, user_id := u, position_id := pid
      answers := "", status := "in_progress", submission_date := now } hprog hfresh2
  have hdbeq := on_message_db_eq (start_application db u pid now).1 env u t now2
    { application_id := db.next_application_id, user_id := u, position_id := pid
      answers := "", status := "in_progress", submission_date := now } hprog
  refine ⟨?_, ?_, ?_, ?_⟩
  · unfold Applications.applyPromptFields
    rw [hq]
    rfl
  · unfold Applications.apply
    rw [hbl, hpos]
    dsimp only
    rw [hopen]
    rfl
  · rw [hdbeq]
    exact hfields.2.1
  · rw [hdbeq]
    exact hfields.2.2

/-- Witness for C1 amended: a fresh user 9 applying to the three-question
position sees all three prompt fields, and their first DM `a` lands as
the submitted answers of the new row 2. -/
theorem c1_witness :
    Applications.applyPromptFields (position_from_row qposRow)
      = [("Question 1", ['Q', '1']), ("Question 2", ['Q', '2']),
         ("Question 3", ['Q', '3'])] ∧
    Applications.apply c1Db 9 1 true 0
      = ((start_application c1Db 9 1 0).1, ApplyResult.started 2) ∧
    statusOf (Applications.on_message (start_application c1Db 9 1 0).1 c1Env 9 "a" [] 100).db 2
      = some "submitted" ∧
    answersOf (Applications.on_message (start_application c1Db 9 1 0).1 c1Env 9 "a" [] 100).db 2
      = some "a" :=
  c1_theorem c1Db c1Env 9 1 (position_from_row qposRow)
    ['Q', '1'] ['Q', '2'] ['Q', '3'] "a" 0 100
    (by decide) (by decide) (by decide) (by decide) (by decide)

/-- The mention-role loop is the order-preserving filter of the parseable
permission entries down to the roles existing in the guild. -/
theorem mention_roles_eq (P : List (List Char)) (G : List Nat) :
    Applications.mention_roles P G
      = (P.filterMap parseNat?).filter (fun n => G.contains n) := by
  have hgen : ∀ (Q : List (List Char)) (acc : List Nat),
      Q.foldl (fun acc rid =>
        match parseNat? rid with
        | none => acc
        | some rid_int => if G.contains rid_int then acc ++ [rid_int] else acc) acc
      = acc ++ (Q.filterMap parseNat?).filter (fun n => G.contains n) := by
    intro Q
    induction Q with
    | nil => intro acc; simp
    | cons s ts ih =>
      intro acc
      simp only [List.foldl_cons]
      cases hp : parseNat? s with
      | none =>
        rw [ih]
        simp [List.filterMap_cons, hp]
      | some n =>
        dsimp only
        by_cases hg : G.contains n = true
        · have hmem : n ∈ G := by simpa [List.elem_iff] using hg
          rw [if_pos hg, ih]
          simp [List.filterMap_cons, hp, List.filter_cons, hmem]
        · have hmem : ¬(n ∈ G) := by
            intro hc
            exact hg (by simpa [List.elem_iff] using hc)
          rw [if_neg hg, ih]
          simp [List.filterMap_cons, hp, List.filter_cons, hmem]
  unfold Applications.mention_roles
  simpa using hgen P []

/-- C8: when a flagged applicant's submission reaches the configured
channel, the mention line is posted first, and it is built from exactly
the role ids mapped to `manage_applications` (as parseable id strings)
that also exist in the guild — with the `@Staff` fallback token when that
intersection is empty. -/
theorem c8_theorem (db : ApplicationsDb) (env : Env) (author : Nat) (t : String)
    (now : Int) (row : AppRow) (g : Nat) (gs : List Nat) (ch : Nat)
    (hguilds : env.guilds = g :: gs)
    (hprog : get_in_progress_application db author = some row)
    (hfresh : ¬(now - row.submission_date > 86400))
    (hch : get_applications_channel db g = some ch)
    (hex : env.channels.contains ch = true)
    (hfl : is_user_flagged db author (some g) = true) :
    (Applications.on_message db env author t [] now).posts
      = [Post.mentionPost
          (Applications.mention_for_flagged env.permManageApps env.guildRoles),
         Post.submissionEmbed row.application_id row.position_id
          (Applications.truncatedAnswers t)] ∧
    (∀ r : Nat, r ∈ Applications.mention_roles env.permManageApps env.guildRoles ↔
      ((∃ s, s ∈ env.permManageApps ∧ parseNat? s = some r) ∧ r ∈ env.guildRoles)) ∧
    (Applications.mention_roles env.permManageApps env.guildRoles = [] →
      Applications.mention_for_flagged env.permManageApps env.guildRoles = "@Staff") ∧
    (Applications.mention_roles env.permManageApps env.guildRoles ≠ [] →
      Applications.mention_for_flagged env.permManageApps env.guildRoles
        = String.intercalate " "
          ((Applications.mention_roles env.permManageApps env.guildRoles).map
            (fun r => "<@&" ++ toString r ++ ">"))) := by
  refine ⟨?_, ?_, ?_, ?_⟩
  · have hsub : submit_application db author t now
        = ({ db with applications :=
              db.applications.map (fun r =>
                if r.application_id == row.application_id then
                  { r with answers := t, status := "submitted", submission_date := now }
                else r) }, SubmitResult.ok row.application_id row.position_id) := by
      unfold submit_application
      rw [hprog]
      dsimp only
      rw [if_neg hfresh]
    have hch2 : get_applications_channel
        ({ db with applications :=
            db.applications.map (fun r =>
              if r.application_id == row.application_id then
                { r with answers := t, status := "submitted", submission_date := now }
              else r) }) g = some ch := hch
    have hfl2 : is_user_flagged
        ({ db with applications :=
            db.applications.map (fun r =>
              if r.application_id == row.application_id then
                { r with answers := t, status := "submitted", submission_date := now }
              else r) }) author (some g) = true := hfl
    unfold Applications.on_message
    rw [hprog]
    dsimp only
    rw [show (if ([] : List String).isEmpty = true then t
        else (t ++ "\n\nAttachments:\n" ++ String.intercalate "\n" ([] : List String)).trim)
          = t
      from rfl]
    rw [hsub]
    dsimp only
    rw [hguilds]
    dsimp only
    rw [hch2]
    dsimp only
    have hexn : ¬((!env.channels.contains ch) = true) := by
      rw [hex]
      simp
    rw [if_neg hexn]
    rw [if_pos hfl2]
    rfl
  · intro r
    rw [mention_roles_eq]
    simp only [List.mem_filter, List.mem_filterMap]
    constructor
    · rintro ⟨⟨s, hs, hps⟩, hcont⟩
      exact ⟨⟨s, hs, hps⟩, by simpa [List.elem_iff] using hcont⟩
    · rintro ⟨⟨s, hs, hps⟩, hmem⟩
      exact ⟨⟨s, hs, hps⟩, by simpa [List.elem_iff] using hmem⟩
  · intro h
    unfold Applications.mention_for_flagged
    rw [h]
    rfl
  · intro h
    unfold Applications.mention_for_flagged
    dsimp only
    have hie : (Applications.mention_roles env.permManageApps env.guildRoles).isEmpty
        = false := by
      rw [List.isEmpty_eq_false]
      exact h
    rw [hie]
    rfl

/-- Witness for C8 on the flagged fixture: the posted mention resolves
exactly role 2 — "9" is mapped but absent from the guild, "x" is not an
id, role 3 exists but is not mapped. -/
theorem c8_witness :
    (Applications.on_message c8Db c8Env 7 "a" [] 100).posts
      = [Post.mentionPost
          (Applications.mention_for_flagged c8Env.permManageApps c8Env.guildRoles),
         Post.submissionEmbed 1 1 (Applications.truncatedAnswers "a")] ∧
    (2 ∈ Applications.mention_roles c8Env.permManageApps c8Env.guildRoles ↔
      ((∃ s, s ∈ c8Env.permManageApps ∧ parseNat? s = some 2) ∧
        2 ∈ c8Env.guildRoles)) ∧
    (9 ∈ Applications.mention_roles c8Env.permManageApps c8Env.guildRoles ↔
      ((∃ s, s ∈ c8Env.permManageApps ∧ parseNat? s = some 9) ∧
        9 ∈ c8Env.guildRoles)) ∧
    Applications.mention_for_flagged c8Env.permManageApps c8Env.guildRoles
      = String.intercalate " "
        ((Applications.mention_roles c8Env.permManageApps c8Env.guildRoles).map
          (fun r => "<@&" ++ toString r ++ ">")) := by
  have h := c8_theorem c8Db c8Env 7 "a" 100
    { application_id := 1, user_id := 7, position_id := 1, answers := ""
      status := "in_progress", submission_date := 0 } 1 [] 5
    (by decide) (by decide) (by decide) (by decide) (by decide) (by decide)
  exact ⟨h.1, h.2.1 2, h.2.1 9, h.2.2.2 (by decide)⟩

/-- Unfolding of `intercalate` on a two-or-more element list. -/
theorem intercalate_cons_cons' {α : Type} (sep x y : List α) (t : List (List α)) :
    List.intercalate sep (x :: y :: t) = x ++ sep ++ List.intercalate sep (y :: t) := by
  simp [List.intercalate, List.intersperse_cons_cons, List.append_assoc]

/-- A delimited join whose first piece is nonempty is nonempty. -/
theorem intercalate_head_ne_nil {α : Type} (sep x : List α) (t : List (List α))
    (hx : x ≠ []) : List.intercalate sep (x :: t) ≠ [] := by
  cases t with
  | nil => simpa [List.intercalate, List.intersperse_singleton] using hx
  | cons y ts =>
    rw [intercalate_cons_cons']
    simp [hx]

/-- Bridge between core's fueled decimal printer and `Nat.digits`. -/
theorem toDigitsCore_eq_digits (b : Nat) (hb : 2 ≤ b) :
    ∀ (fuel n : Nat) (ds : List Char), n ≤ fuel → 0 < n →
      Nat.toDigitsCore b fuel n ds
        = ((Nat.digits b n).reverse.map Nat.digitChar) ++ ds := by
  intro fuel
  induction fuel with
  | zero =>
    intro n ds h1 h2
    omega
  | succ fuel ih =>
    intro n ds h1 h2
    rw [Nat.toDigitsCore]
    by_cases hdiv : n / b = 0
    · rw [if_pos hdiv]
      have hnb : n < b := (Nat.div_eq_zero_iff (by omega)).mp hdiv
      rw [Nat.digits_def' (by omega : 1 < b) h2, hdiv, Nat.digits_zero,
        Nat.mod_eq_of_lt hnb]
      simp
    · rw [if_neg hdiv]
      have hpos : 0 < n / b := Nat.pos_of_ne_zero hdiv
      have hlt : n / b < n := Nat.div_lt_self h2 (by omega)
      rw [ih (n / b) (Nat.digitChar (n % b) :: ds) (by omega) hpos]
      rw [Nat.digits_def' (by omega : 1 < b) h2]
      simp [List.reverse_cons, List.map_append, List.append_assoc]

/-- Core's `Nat.toDigits` in base 10 (the model of Python `str`) in terms
of `Nat.digits`. -/
theorem toDigits_eq_digits (n : Nat) :
    Nat.toDigits 10 n
      = if n = 0 then ['0'] else (Nat.digits 10 n).reverse.map Nat.digitChar := by
  by_cases h : n = 0
  · subst h
    rfl
  · rw [if_neg h]
    have hd := toDigitsCore_eq_digits 10 (by omega) (n + 1) n [] (by omega)
      (Nat.pos_of_ne_zero h)
    unfold Nat.toDigits
    simpa using hd

/-- Facts about decimal digit characters, by enumeration. -/
theorem digitChar_facts : ∀ d, d < 10 → (Nat.digitChar d).isDigit = true ∧
    chDigit (Nat.digitChar d) = d ∧ (Nat.digitChar d) ≠ ',' := by
  decide

/-- A digit character is never whitespace. -/
theorem isDigit_not_ws (c : Char) (h : c.isDigit = true) : c.isWhitespace = false := by
  by_contra hws
  rw [Bool.not_eq_false] at hws
  have hcases : ((c = ' ' ∨ c = '\t') ∨ c = '\x0d') ∨ c = '\n' := by
    simpa [Char.isWhitespace] using hws
  rcases hcases with ((rfl | rfl) | rfl) | rfl <;> exact absurd h (by decide)

/-- Every character of the decimal rendering is a digit. -/
theorem toDigits_all_digit (n : Nat) : ∀ c ∈ Nat.toDigits 10 n, c.isDigit = true := by
  intro c hc
  rw [toDigits_eq_digits] at hc
  by_cases h : n = 0
  · rw [if_pos h] at hc
    simp only [List.mem_singleton] at hc
    subst hc
    decide
  · rw [if_neg h] at hc
    simp only [List.mem_map, List.mem_reverse] at hc
    obtain ⟨d, hd, rfl⟩ := hc
    exact (digitChar_facts d (Nat.digits_lt_base (by omega) hd)).1

/-- The decimal rendering is never the empty string. -/
theorem toDigits_ne_nil (n : Nat) : Nat.toDigits 10 n ≠ [] := by
  rw [toDigits_eq_digits]
  by_cases h : n = 0
  · rw [if_pos h]
    simp
  · rw [if_neg h]
    intro hcon
    have h1 : (Nat.digits 10 n).reverse = [] := by
      cases hrev : (Nat.digits 10 n).reverse with
      | nil => rfl
      | cons a t =>
        rw [hrev] at hcon
        simp at hcon
    have h2 : Nat.digits 10 n = [] := by
      simpa using congrArg List.reverse h1
    exact (Nat.digits_ne_nil_iff_ne_zero.mpr h) h2

/-- The decimal rendering never contains the roles delimiter. -/
theorem toDigits_no_comma (n : Nat) : ',' ∉ Nat.toDigits 10 n := by
  intro hmem
  exact absurd (toDigits_all_digit n ',' hmem) (by decide)

/-- The decimal rendering contains a non-whitespace character. -/
theorem toDigits_has_nonws (n : Nat) :
    (Nat.toDigits 10 n).any (fun c => !c.isWhitespace) = true := by
  rw [List.any_eq_true]
  obtain ⟨c, hc⟩ := List.exists_mem_of_ne_nil _ (toDigits_ne_nil n)
  refine ⟨c, hc, ?_⟩
  rw [isDigit_not_ws c (toDigits_all_digit n c hc)]
  rfl

/-- Parsing folds over digit characters like the digit-value fold. -/
theorem foldl_digits_map (l : List Nat) (hl : ∀ d ∈ l, d < 10) :
    ∀ a : Nat, List.foldl (fun a c => 10 * a + chDigit c) a (l.map Nat.digitChar)
      = List.foldl (fun a d => 10 * a + d) a l := by
  induction l with
  | nil => intro a; rfl
  | cons d t ih =>
    intro a
    simp only [List.map_cons, List.foldl_cons]
    rw [(digitChar_facts d (hl d (List.mem_cons_self _ _))).2.1]
    exact ih (fun x hx => hl x (List.mem_cons_of_mem _ hx)) _

/-- The big-endian digit fold inverts the little-endian digit expansion. -/
theorem foldl_reverse_ofDigits (l : List Nat) :
    List.foldl (fun a d => 10 * a + d) 0 l.reverse = Nat.ofDigits 10 l := by
  induction l with
  | nil => rfl
  | cons d t ih =>
    rw [List.reverse_cons, List.foldl_append]
    simp only [List.foldl_cons, List.foldl_nil]
    rw [ih, Nat.ofDigits_cons]
    have := Nat.ofDigits 10 t
    omega

/-- Parsing inverts printing: the model of Python `int` recovers every
natural from its `str` rendering. -/
theorem parseNat_toDigits (n : Nat) : parseNat? (Nat.toDigits 10 n) = some n := by
  by_cases h : n = 0
  · subst h
    decide
  · unfold parseNat?
    rw [toDigits_eq_digits, if_neg h]
    have hlt : ∀ d ∈ Nat.digits 10 n, d < 10 :=
      fun d hd => Nat.digits_lt_base (by omega) hd
    have hlt2 : ∀ d ∈ (Nat.digits 10 n).reverse, d < 10 :=
      fun d hd => hlt d (List.mem_reverse.mp hd)
    have hne : ((Nat.digits 10 n).reverse.map Nat.digitChar).isEmpty = false := by
      rw [List.isEmpty_eq_false]
      intro hcon
      apply Nat.digits_ne_nil_iff_ne_zero.mpr h
      have h1 : (Nat.digits 10 n).reverse = [] := by
        cases hrev : (Nat.digits 10 n).reverse with
        | nil => rfl
        | cons a t =>
          rw [hrev] at hcon
          simp at hcon
      simpa using congrArg List.reverse h1
    have hdig : ((Nat.digits 10 n).reverse.map Nat.digitChar).all
        (fun c => c.isDigit) = true := by
      rw [List.all_eq_true]
      intro c hc
      simp only [List.mem_map, List.mem_reverse] at hc
      obtain ⟨d, hd, rfl⟩ := hc
      exact (digitChar_facts d (hlt d hd)).1
    rw [if_pos (by rw [hne, hdig]; rfl)]
    congr 1
    rw [foldl_digits_map _ hlt2 0, foldl_reverse_ofDigits, Nat.ofDigits_digits]

/-- Comma-joined decimal role ids decode back to exactly the same list. -/
theorem decode_encode_roles (roles : List Nat) :
    decodeRoles (encodeRoles roles) = roles := by
  cases roles with
  | nil => rfl
  | cons r rs =>
    unfold decodeRoles encodeRoles
    have hne : List.intercalate [','] ((r :: rs).map (fun x => Nat.toDigits 10 x))
        ≠ [] := by
      simp only [List.map_cons]
      exact intercalate_head_ne_nil [','] _ _ (toDigits_ne_nil r)
    have hie : (List.intercalate [',']
        ((r :: rs).map (fun x => Nat.toDigits 10 x))).isEmpty = false := by
      rw [List.isEmpty_eq_false]
      exact hne
    rw [hie]
    simp only [Bool.false_eq_true, if_false]
    rw [List.splitOn_intercalate _ ','
      (by
        intro l hl
        obtain ⟨m, _, rfl⟩ := List.mem_map.mp hl
        exact toDigits_no_comma m)
      (by simp)]
    have hfil : ((r :: rs).map (fun x => Nat.toDigits 10 x)).filter
        (fun p => !p.isEmpty && p.any (fun c => !c.isWhitespace))
        = (r :: rs).map (fun x => Nat.toDigits 10 x) := by
      rw [List.filter_eq_self]
      intro a ha
      obtain ⟨m, _, rfl⟩ := List.mem_map.mp ha
      have h1 : (Nat.toDigits 10 m).isEmpty = false := by
        rw [List.isEmpty_eq_false]
        exact toDigits_ne_nil m
      rw [h1, toDigits_has_nonws m]
      rfl
    rw [hfil, List.filterMap_map]
    have hcomp : (parseNat? ∘ fun x => Nat.toDigits 10 x) = some := by
      funext x
      exact parseNat_toDigits x
    rw [hcomp, List.filterMap_some]

/-- Newline-joined questions decode back to the same list exactly when
every question is nonempty and newline-free. -/
theorem decode_encode_questions (qs : List (List Char))
    (hq : ∀ q ∈ qs, q ≠ [] ∧ '\n' ∉ q) :
    decodeQuestions (encodeQuestions qs) = qs := by
  cases qs with
  | nil => rfl
  | cons q rest =>
    unfold decodeQuestions encodeQuestions
    have hqne : q ≠ [] := (hq q (List.mem_cons_self _ _)).1
    have hie : (List.intercalate ['\n'] (q :: rest)).isEmpty = false := by
      rw [List.isEmpty_eq_false]
      exact intercalate_head_ne_nil ['\n'] q rest hqne
    rw [hie]
    simp only [Bool.false_eq_true, if_false]
    rw [List.splitOn_intercalate _ '\n' (fun l hl => (hq l hl).2) (by simp)]
    have hfil : (q :: rest).filter (fun p => !p.isEmpty) = q :: rest := by
      rw [List.filter_eq_self]
      intro a ha
      have h1 := (hq a ha).1
      simp [h1]
    rw [hfil]

/-- C9 counterexample: the questions encoding does not reject or escape
the newline delimiter — a question containing it is corrupted on read
(split in two), and an empty question is dropped; this also shows through
the store via the field setter. -/
theorem c9_counterexample :
    decodeQuestions (encodeQuestions [['a', '\n', 'b']]) = [['a'], ['b']] ∧
    [['a'], ['b']] ≠ [['a', '\n', 'b']] ∧
    decodeQuestions (encodeQuestions [['a'], [], ['b']]) = [['a'], ['b']] ∧
    (get_position (modify_questions posDb 1 [['a', '\n', 'b']]) 1).map Position.questions
      = some [['a'], ['b']] := by
  decide

/-- C9 amended: writing a role-id list via the field setter and reading
the position back always round-trips; writing a question list round-trips
exactly when every question is nonempty and free of the newline
delimiter — the setter neither rejects nor escapes a delimiter-bearing
element, it corrupts on read. -/
theorem c9_theorem (db : ApplicationsDb) (position_id : Nat) (p0 : Position)
    (hpos : get_position db position_id = some p0)
    (qs : List (List Char)) (roles : List Nat)
    (hq : ∀ q ∈ qs, q ≠ [] ∧ '\n' ∉ q) :
    (get_position (modify_questions db position_id qs) position_id).map
        Position.questions = some qs ∧
    (get_position (modify_roles_given db position_id roles) position_id).map
        Position.roles_given = some roles := by
  have hex : ∃ prow, db.positions.find? (fun p => p.position_id == position_id)
      = some prow := by
    unfold get_position at hpos
    cases hfind : db.positions.find? (fun p => p.position_id == position_id) with
    | none =>
      rw [hfind] at hpos
      cases hpos
    | some prow => exact ⟨prow, rfl⟩
  obtain ⟨prow, hfind⟩ := hex
  have hpid : prow.position_id = position_id := by
    have hx := List.find?_some hfind
    simpa using hx
  constructor
  · unfold modify_questions get_position
    dsimp only
    have hfm := find?_map_ite db.positions (fun p => p.position_id == position_id)
      (fun p => { p with questions := encodeQuestions qs }) (fun p => rfl)
    rw [hfm, hfind]
    simp [hpid, position_from_row, decode_encode_questions qs hq]
  · unfold modify_roles_given get_position
    dsimp only
    have hfm := find?_map_ite db.positions (fun p => p.position_id == position_id)
      (fun p => { p with roles_given := encodeRoles roles }) (fun p => rfl)
    rw [hfm, hfind]
    simp [hpid, position_from_row, decode_encode_roles roles]

/-- Witness for C9 amended on the one-position fixture: a newline-free
question list and a role list round-trip through the setter and reader. -/
theorem c9_witness :
    (get_position (modify_questions posDb 1 [['a'], ['b', 'c']]) 1).map
        Position.questions = some [['a'], ['b', 'c']] ∧
    (get_position (modify_roles_given posDb 1 [2, 10]) 1).map
        Position.roles_given = some [2, 10] :=
  c9_theorem posDb 1
    { position_id := 1, name := "helper", description := "", roles_given := []
      questions := [], acceptance_message := "", rejection_message := ""
      openFlag := true }
    (by decide) [['a'], ['b', 'c']] [2, 10] (by decide)

end TanClient
